import Mathlib

/-!
# Verification of the query-orchestration core

Shallow embedding, in Lean 4, of the query-orchestration core of the
repository:

* the source-diversification algorithm inlined in the `rag_query` and
  `rag_stream` endpoints (`api/app.py`, the block headed
  "Find diverse sources by looking at different sections");
* the `PubMedCrossFitAgent` workflow (`api/features/agents/pub_med_agent.py`):
  cache check, intent analysis, local retrieval, confidence evaluation,
  conditional PubMed retrieval, synthesis, generation, helpfulness
  evaluation, refinement loop, cache write and finalization.

Modelling conventions:

* Python `float` values are modelled by `ℚ`; every numeric comparison the
  code performs (`>= 0.7`, clamping into `[0, 1]`) is exact at the values
  involved, so truth values are preserved.
* External collaborators (the similarity retriever, the PubMed client, the
  chat model) are oracles collected in an `Env` record; every theorem
  quantifies over the oracle unless it exhibits a concrete run.  Calls that
  Python protects with a local catch-all `try/except` returning a default
  (`search_local_documents`, `search_pubmed`) are total oracles returning
  the post-recovery value; chat-model invocations, whose exceptions
  propagate to the top-level handler in `query`, return
  `Except String String`.
* `hashlib.sha256(query).hexdigest()` is modelled by the oracle field
  `Env.fingerprint`; all theorems hold for an arbitrary fingerprint
  function.
* Python's in-place stable `list.sort(key=..., reverse=True)` is modelled
  by a stable insertion sort (`sortDesc`); a stable sort by a fixed key is
  unique as a function, so the two compute the same list.
* The run additionally returns a ghost trace (`List Ev`) recording, in
  order, each collaborator invocation and the entry into the synthesis
  node; the trace is instrumentation and feeds no computation.
-/

/-! ## Source diversification (api/app.py) -/

/-- A retrieved source as handled by the `rag_query`/`rag_stream` endpoints:
the dict `{"text": ..., "source": ..., "score": ...}`. -/
structure Source where
  text : String
  source : String
  score : ℚ
deriving DecidableEq, Repr

/-- Check whether `sep` occurs at the head of `l`. -/
def beginsWith : List Char → List Char → Bool
  | [], _ => true
  | _ :: _, [] => false
  | a :: as, b :: bs => a == b && beginsWith as bs

/-- Scan to the first occurrence of `sep`, keeping the characters before
it (the whole list when `sep` does not occur). -/
def splitHead (sep : List Char) : List Char → List Char
  | [] => []
  | c :: rest => if beginsWith sep (c :: rest) then [] else c :: splitHead sep rest

/-- Python `source['source'].split(' (Section')[0] if ' (Section' in
source['source'] else source['source']` — the document name cut at the
first occurrence of " (Section" (the two branches of the Python
conditional coincide: when the separator is absent, `split` returns the
whole string as its first field). -/
def baseName (s : String) : String :=
  ⟨splitHead (" (Section").data s.data⟩

/-- The first-100-characters text fingerprint `source['text'][:100]` used as
a cheap identity check during backfill. -/
def textFingerprint (s : Source) : String :=
  s.text.take 100

/-- Append source `s` to the group keyed `k`, or start a new group at the
end: the insertion-order behaviour of the Python dict `source_groups`. -/
def addToGroups (gs : List (String × List Source)) (k : String) (s : Source) :
    List (String × List Source) :=
  match gs with
  | [] => [(k, [s])]
  | (k', l) :: rest =>
    if k' = k then (k', l ++ [s]) :: rest else (k', l) :: addToGroups rest k s

/-- Grouping `source_groups`: group the candidates by `baseName`, keys in first
occurrence order, members in input order. -/
def sourceGroups (xs : List Source) : List (String × List Source) :=
  xs.foldl (fun gs s => addToGroups gs (baseName s.source) s) []

/-- Insert a source into a descending-sorted list, after every element of
strictly greater score and before every element of smaller-or-equal score,
so that elements that compare equal keep their original relative order. -/
def insertDesc (s : Source) : List Source → List Source
  | [] => [s]
  | t :: rest => if s.score < t.score then t :: insertDesc s rest else s :: t :: rest

/-- Sort `group_sources.sort(key=lambda x: x.get('score', 0), reverse=True)` —
stable descending sort by score.  Python's `list.sort` is stable, and a
stable sort by a fixed key is unique as a function of the input list, so
the stable insertion sort used here computes exactly the same list. -/
def sortDesc (l : List Source) : List Source :=
  l.foldr insertDesc []

/-- Phase 1 of the diversifier: from each group (already sorted descending)
take the head, remembering its text fingerprint in `seen_texts`. -/
def phase1 (groups : List (String × List Source)) : List Source × List String :=
  groups.foldl
    (fun acc g =>
      match g.2 with
      | [] => acc
      | best :: _ => (acc.1 ++ [best], acc.2 ++ [textFingerprint best]))
    ([], [])

/-- The inner backfill loop over one group's (sorted) members: stop as soon
as `target` is reached, skip fingerprints already seen, otherwise add. -/
def scanGroup (target : Nat) : List Source → List Source × List String → List Source × List String
  | [], acc => acc
  | s :: rest, (final, seen) =>
    if target ≤ final.length then (final, seen)
    else if textFingerprint s ∈ seen then scanGroup target rest (final, seen)
    else scanGroup target rest (final ++ [s], seen ++ [textFingerprint s])

/-- The outer backfill loop over the groups, with its early `break` when
`target` is reached. -/
def backfillGroups (target : Nat) : List (String × List Source) → List Source × List String → List Source × List String
  | [], acc => acc
  | g :: rest, (final, seen) =>
    if target ≤ final.length then (final, seen)
    else backfillGroups target rest (scanGroup target g.2 (final, seen))

/-- The source-diversification block of `rag_query`/`rag_stream`: group by
document, sort each group descending (in place, so the backfill phase sees
the sorted groups), take the best of each group, backfill distinct-
fingerprint chunks while fewer than `target` sources are selected, and sort
the result descending by score.  The literal `3` of the source is
generalised to the parameter `target` (the spec's `diversify(candidates,
target = 3)`); both endpoints instantiate `target = 3`. -/
def diversify (target : Nat) (xs : List Source) : List Source :=
  let groups := (sourceGroups xs).map (fun g => (g.1, sortDesc g.2))
  let p := phase1 groups
  let p2 := if p.1.length < target then backfillGroups target groups p else p
  sortDesc p2.1

/-! ## The PubMed agent workflow (api/features/agents/pub_med_agent.py) -/

/-- One PubMed article as produced by `search_pubmed`. -/
structure Article where
  title : String
  abstract : String
  authors : List String
  year : String
  pmid : String
  source : String
deriving DecidableEq, Repr

/-- One local retrieval hit as produced by `search_local_documents`. -/
structure LocalResult where
  content : String
  source : String
  relevance_score : ℚ
deriving DecidableEq, Repr

/-- The data cached per query by `_cache_response`.  The wall-clock
`time.time()` timestamp, which no reader consumes, is modelled as `0`. -/
structure CacheData where
  pubmed_results : List Article
  context : String
  response : String
  timestamp : ℚ
deriving DecidableEq, Repr

/-- Model of `self._cache`: a Python dict, modelled as an association list with
first-match `List.lookup` semantics (a new entry is consed in front, which
observationally matches dict assignment). -/
abbrev Cache := List (String × CacheData)

/-- The `AgentState` TypedDict threaded through the LangGraph workflow.
`messages` keeps only the message contents (the workflow appends only
`SystemMessage`s and reads only `.content`).  The fields `workout_plan` and
`educational_content`, which no node of the compiled graph ever reads or
writes after initialisation, are omitted. -/
structure AgentState where
  messages : List String
  query : String
  context : String
  pubmed_results : List Article
  local_rag_results : List LocalResult
  next_action : String
  response : String
  helpfulness_score : String
  attempt_count : Nat
  max_attempts : Nat
  context_quality_score : ℚ
  pubmed_quality_score : ℚ
  local_quality_score : ℚ
  local_confidence : ℚ
  cache_key : String
  cache_hit : Bool
deriving DecidableEq, Repr

instance : Inhabited AgentState :=
  ⟨⟨[], "", "", [], [], "", "", "", 0, 0, 0, 0, 0, 0, "", false⟩⟩

/-- The external collaborators, as oracles.  Chat-model oracles receive the
semantic inputs the code interpolates into the corresponding prompt (the
surrounding fixed prompt text selects no behaviour once the model is
universally quantified); an `Except.error` models an exception raised by
the call, which the agent code does not catch locally. -/
structure Env where
  /-- Hash `hashlib.sha256(query.encode()).hexdigest()` in `_check_cache`. -/
  fingerprint : String → String
  /-- Retrieval `search_local_documents` (its internal catch-all returns `[]`). -/
  searchLocal : String → List LocalResult
  /-- Retrieval `search_pubmed` with `max_results=5` (its catch-all returns `[]`). -/
  searchPubMed : String → List Article
  /-- The classification call of `_analyze_query` on the query. -/
  llmIntent : String → Except String String
  /-- The scoring call of `_evaluate_confidence` on the query and the
  local results. -/
  llmConfidence : String → List LocalResult → Except String String
  /-- The generation call of `_generate_response` on the query, the
  context and `next_action` (which selects the prompt template). -/
  llmGenerate : String → String → String → Except String String
  /-- The verdict call of `_evaluate_helpfulness` on query and response. -/
  llmHelpfulness : String → String → Except String String
  /-- The reformulation call of `_refine_response` on the query and the
  unhelpful response. -/
  llmRefine : String → String → Except String String

/-- Ghost trace events: one per collaborator invocation, plus a marker for
entry into the synthesis node. -/
inductive Ev where
  | fingerprint
  | llmIntent
  | localSearch
  | llmConfidence
  | pubmedSearch
  | synthesize
  | llmGenerate
  | llmHelpfulness
  | llmRefine
deriving DecidableEq, Repr

/-- Python `str.strip()`: drop leading and trailing whitespace (modelled
on the common whitespace characters covered by `Char.isWhitespace`). -/
def pyStrip (s : String) : String :=
  ⟨((s.data.dropWhile Char.isWhitespace).reverse.dropWhile Char.isWhitespace).reverse⟩

/-- Python `str.upper()` (ASCII case mapping). -/
def pyUpper (s : String) : String := ⟨s.data.map Char.toUpper⟩

/-- Python `str.lower()` (ASCII case mapping). -/
def pyLower (s : String) : String := ⟨s.data.map Char.toLower⟩

/-- Python `float(...)` restricted to plain decimal notation (optional
sign, digits, optional fractional part): scientific notation, `inf`, `nan`
and underscore separators are treated as parse failures.  `none` models
the `ValueError` branch of `_evaluate_confidence`. -/
def pyFloat? (s : String) : Option ℚ :=
  let cs := s.data
  let signAndRest : Bool × List Char :=
    match cs with
    | '+' :: r => (false, r)
    | '-' :: r => (true, r)
    | r => (false, r)
  let neg := signAndRest.1
  let rest := signAndRest.2
  let intPart := rest.takeWhile Char.isDigit
  let rest2 := rest.dropWhile Char.isDigit
  let natOfDigits : List Char → ℕ := fun l => l.foldl (fun n c => 10 * n + (c.toNat - 48)) 0
  let signed : ℤ → ℤ := fun n => if neg then -n else n
  match rest2 with
  | [] =>
    if intPart.isEmpty then none
    else some (mkRat (signed (natOfDigits intPart)) 1)
  | '.' :: frac =>
    if frac.all Char.isDigit ∧ ¬(intPart.isEmpty ∧ frac.isEmpty) then
      some (mkRat (signed (natOfDigits intPart * 10 ^ frac.length + natOfDigits frac))
        (10 ^ frac.length))
    else none
  | _ => none

/-- Node `_check_cache`: derive the cache key from the current query, look it
up, and on a hit restore the cached PubMed results, context and response. -/
def checkCache (env : Env) (cache : Cache) (s : AgentState) : AgentState :=
  let key := env.fingerprint s.query
  let s := { s with cache_key := key }
  match List.lookup key cache with
  | some d =>
    { s with cache_hit := true, pubmed_results := d.pubmed_results,
             context := d.context, response := d.response }
  | none => { s with cache_hit := false }

/-- Router `_route_cache_decision`. -/
def routeCacheDecision (s : AgentState) : String :=
  if s.cache_hit then "cache_hit" else "cache_miss"

/-- Node `_cache_response`: store the current PubMed results, context and
response under the state's cache key. -/
def cacheDataOf (s : AgentState) : CacheData :=
  { pubmed_results := s.pubmed_results, context := s.context,
    response := s.response, timestamp := 0 }

/-- Assignment `self._cache[cache_key] = cache_data`. -/
def cacheResponse (cache : Cache) (s : AgentState) : Cache :=
  (s.cache_key, cacheDataOf s) :: cache

/-- Node `_analyze_query`: classify the query; the stripped, lowercased model
output is stored verbatim in `next_action`.  There is no `try/except`
here: an exception from the model propagates. -/
def analyzeQuery (env : Env) (s : AgentState) : Except String AgentState :=
  (env.llmIntent s.query).map fun c =>
    { s with next_action := pyLower (pyStrip c) }

/-- Node `_search_local_node`. -/
def searchLocalNode (env : Env) (s : AgentState) : AgentState :=
  { s with local_rag_results := env.searchLocal s.query }

/-- Node `_search_pubmed_node`. -/
def searchPubmedNode (env : Env) (s : AgentState) : AgentState :=
  { s with pubmed_results := env.searchPubMed s.query }

/-- Node `_evaluate_confidence`: parse the model's reply as a float and clamp it
into `[0, 1]`; a parse failure (`ValueError`) yields the conservative
default `0.3`.  An exception from the model call itself is not caught
(only `ValueError`/`AttributeError` are). -/
def evaluateConfidence (env : Env) (s : AgentState) : Except String AgentState :=
  (env.llmConfidence s.query s.local_rag_results).map fun content =>
    let conf : ℚ :=
      match pyFloat? (pyStrip content) with
      | some v => max 0 (min 1 v)
      | none => mkRat 3 10
    { s with local_confidence := conf }

/-- Router `_route_based_on_confidence`: skip PubMed iff the confidence is at
least `0.7`. -/
def routeBasedOnConfidence (s : AgentState) : String :=
  if mkRat 7 10 ≤ s.local_confidence then "skip_pubmed" else "search_pubmed"

/-- Node `_synthesize_information`: bound both result lists to their top 3
entries, truncate texts to 500 characters, and build the evidence
context. -/
def synthesizeInformation (s : AgentState) : AgentState :=
  let pubmed_info :=
    if s.pubmed_results = [] then ""
    else String.intercalate ("\n\n") ((s.pubmed_results.take 3).map fun a =>
      "**" ++ a.title ++ "** (" ++ a.year ++ ")\n" ++ a.abstract.take 500 ++ "...")
  let local_info :=
    if s.local_rag_results = [] then ""
    else String.intercalate ("\n\n") ((s.local_rag_results.take 3).map fun r =>
      "**" ++ r.source ++ "**\n" ++ r.content.take 500 ++ "...")
  { s with context := "PubMed Research:\n" ++ pubmed_info ++ "\n\nLocal Documents:\n" ++ local_info }

/-- Node `_generate_response`: the candidate answer is the model's reply to the
prompt built from the query, the context and the `next_action`-selected
template (the quality scores interpolated into the prompt are constant over
a run and are absorbed into the oracle). -/
def generateResponse (env : Env) (s : AgentState) : Except String AgentState :=
  (env.llmGenerate s.query s.context s.next_action).map fun c =>
    { s with response := c }

/-- Node `_evaluate_helpfulness`: strip and uppercase the model's reply, then
normalise it to `"Y"` exactly when it contains the character `Y` anywhere,
and to `"N"` otherwise. -/
def evaluateHelpfulness (env : Env) (s : AgentState) : Except String AgentState :=
  (env.llmHelpfulness s.query s.response).map fun c =>
    { s with helpfulness_score := if (pyUpper (pyStrip c)).data.contains 'Y' then "Y" else "N" }

/-- Router `_route_based_on_helpfulness`. -/
def routeBasedOnHelpfulness (s : AgentState) : String :=
  if s.helpfulness_score = "Y" then "end"
  else if s.max_attempts ≤ s.attempt_count then "max_attempts_reached"
  else "refine"

/-- Node `_refine_response`: replace the working query by the stripped refined
query, increment the attempt counter, and append the refinement system
message. -/
def refineResponse (env : Env) (s : AgentState) : Except String AgentState :=
  (env.llmRefine s.query s.response).map fun c =>
    let refined := pyStrip c
    { s with query := refined, attempt_count := s.attempt_count + 1,
             messages := s.messages ++
               ["Refining query (attempt " ++ toString (s.attempt_count + 1) ++ "/" ++
                 toString s.max_attempts ++ "): " ++ refined] }

/-- The limitation note `_finalize_response` wraps around the response when
the run ends unhelpful at the attempt cap (the exact f-string of the
source, indentation included). -/
def noteWrap (r : String) (n : Nat) : String :=
  "\n            " ++ r ++
  "\n            \n            Note: I've made " ++ toString n ++
  " attempts to provide the most helpful response possible.\n            If you need more specific information, please consider refining your question.\n            "

/-- Node `_finalize_response`. -/
def finalizeResponse (s : AgentState) : AgentState :=
  if s.helpfulness_score = "N" ∧ s.max_attempts ≤ s.attempt_count then
    { s with response := noteWrap s.response s.attempt_count }
  else s

/-- One pass of the cache-miss pipeline, `analyze_query` through
`evaluate_helpfulness`, following the edges wired in `_build_graph`;
returns the ghost trace alongside the `Except`-threaded state. -/
def runCycle (env : Env) (s : AgentState) : Except String AgentState × List Ev :=
  match analyzeQuery env s with
  | .error e => (.error e, [.llmIntent])
  | .ok s1 =>
    let s2 := searchLocalNode env s1
    match evaluateConfidence env s2 with
    | .error e => (.error e, [.llmIntent, .localSearch, .llmConfidence])
    | .ok s3 =>
      if routeBasedOnConfidence s3 = "skip_pubmed" then
        let s4 := synthesizeInformation s3
        match generateResponse env s4 with
        | .error e =>
          (.error e, [.llmIntent, .localSearch, .llmConfidence, .synthesize, .llmGenerate])
        | .ok s5 =>
          match evaluateHelpfulness env s5 with
          | .error e =>
            (.error e,
             [.llmIntent, .localSearch, .llmConfidence, .synthesize, .llmGenerate, .llmHelpfulness])
          | .ok s6 =>
            (.ok s6,
             [.llmIntent, .localSearch, .llmConfidence, .synthesize, .llmGenerate, .llmHelpfulness])
      else
        let s4 := searchPubmedNode env s3
        let s5 := synthesizeInformation s4
        match generateResponse env s5 with
        | .error e =>
          (.error e,
           [.llmIntent, .localSearch, .llmConfidence, .pubmedSearch, .synthesize, .llmGenerate])
        | .ok s6 =>
          match evaluateHelpfulness env s6 with
          | .error e =>
            (.error e,
             [.llmIntent, .localSearch, .llmConfidence, .pubmedSearch, .synthesize, .llmGenerate,
              .llmHelpfulness])
          | .ok s7 =>
            (.ok s7,
             [.llmIntent, .localSearch, .llmConfidence, .pubmedSearch, .synthesize, .llmGenerate,
              .llmHelpfulness])

/-- Outcome of driving the graph's refinement loop.  `fuelOut` is a model
artifact of bounding the unrolling; it is proved unreachable for the fuel
the driver supplies. -/
inductive RunOut where
  | ok (s : AgentState)
  | err (e : String)
  | fuelOut
deriving DecidableEq, Repr

/-- The refinement loop: run a cycle, and while `_route_based_on_helpfulness`
says `"refine"`, refine and loop back to `analyze_query`. -/
def runLoop (env : Env) : Nat → AgentState → RunOut × List Ev
  | 0, _ => (.fuelOut, [])
  | fuel + 1, s =>
    match runCycle env s with
    | (.error e, t) => (.err e, t)
    | (.ok s', t) =>
      if routeBasedOnHelpfulness s' = "refine" then
        match refineResponse env s' with
        | .error e => (.err e, t ++ [.llmRefine])
        | .ok s'' =>
          let r := runLoop env fuel s''
          (r.1, t ++ [.llmRefine] ++ r.2)
      else (.ok s', t)

/-- Outcome of the whole graph run, carrying the possibly updated cache. -/
inductive GraphOut where
  | ok (cache : Cache) (s : AgentState)
  | err (e : String)
  | fuelOut
deriving DecidableEq, Repr

/-- The compiled graph of `_build_graph`: `check_cache`, cache routing, the
refinement loop, then `cache_response` followed by `finalize_response` on
the miss path (`finalize_response` alone on the hit path).  The fuel
`max_attempts - attempt_count + 1` bounds the loop unrolling and is proved
sufficient. -/
def runGraph (env : Env) (cache : Cache) (s0 : AgentState) : GraphOut × List Ev :=
  let s1 := checkCache env cache s0
  if routeCacheDecision s1 = "cache_hit" then
    (.ok cache (finalizeResponse s1), [.fingerprint])
  else
    match runLoop env (s1.max_attempts - s1.attempt_count + 1) s1 with
    | (.ok s2, t) => (.ok (cacheResponse cache s2) (finalizeResponse s2), .fingerprint :: t)
    | (.err e, t) => (.err e, .fingerprint :: t)
    | (.fuelOut, t) => (.fuelOut, .fingerprint :: t)

/-- The dict returned by `PubMedCrossFitAgent.query`.  On the error path
the Python dict carries no `helpfulness_score`/`attempts` keys, hence the
`Option`s. -/
structure QueryResult where
  response : String
  pubmed_sources : List Article
  local_sources : List LocalResult
  context_used : String
  helpfulness_score : Option String
  attempts : Option Nat
deriving DecidableEq, Repr

/-- The fallback answer of `query` when the final state holds no response
and no messages. -/
def apologyMsg : String := "I apologize, but I couldn't generate a response at this time."

/-- The initial `AgentState` literal of `query`. -/
def initialState (q : String) (maxA : Nat) : AgentState :=
  { messages := [], query := q, context := "", pubmed_results := [],
    local_rag_results := [], next_action := "", response := "",
    helpfulness_score := "", attempt_count := 1, max_attempts := maxA,
    context_quality_score := mkRat 1 2, pubmed_quality_score := 0,
    local_quality_score := 0, local_confidence := 0, cache_key := "",
    cache_hit := false }

/-- Entry point `PubMedCrossFitAgent.query`: build the initial state, run the graph,
extract the response (falling back to the last message content and then to
the apology), append the refinement suffix when more than one attempt was
used, and catch any propagated exception into an apologetic error result
that leaves the cache untouched. -/
def queryAgent (env : Env) (cache : Cache) (q : String) (maxA : Nat) :
    Cache × QueryResult × List Ev :=
  match runGraph env cache (initialState q maxA) with
  | (.ok c' s, t) =>
    let rc :=
      if s.response = "" ∧ s.messages ≠ [] then (s.messages.getLast?).getD ""
      else if s.response = "" then apologyMsg
      else s.response
    let info :=
      if 1 < s.attempt_count then
        "\n\n(Response refined " ++ toString (s.attempt_count - 1) ++ " times for helpfulness)"
      else ""
    (c', { response := rc ++ info, pubmed_sources := s.pubmed_results,
           local_sources := s.local_rag_results, context_used := s.context,
           helpfulness_score := some s.helpfulness_score,
           attempts := some s.attempt_count }, t)
  | (.err e, t) =>
    (cache, { response := "I encountered an error while processing your query: " ++ e,
              pubmed_sources := [], local_sources := [], context_used := "",
              helpfulness_score := none, attempts := none }, t)
  | (.fuelOut, t) =>
    (cache, { response := "", pubmed_sources := [], local_sources := [],
              context_used := "", helpfulness_score := none, attempts := none }, t)

/-! ## Concrete instances used by witnesses and counterexamples -/

/-- Projection extracting the state of a successful `Except` step. -/
def okStateOf : Except String AgentState → AgentState
  | .ok s => s
  | .error _ => default

/-- Projection extracting the state of a successful loop outcome. -/
def runOutState : RunOut → AgentState
  | .ok s => s
  | .err _ => default
  | .fuelOut => default

/-- Example candidate source: best chunk of document A. -/
def exA1 : Source := ⟨"a1", "DocA (Section 1)", 5⟩

/-- Example candidate source: tied low-score chunk of document A. -/
def exA2 : Source := ⟨"a2", "DocA (Section 2)", 1⟩

/-- Example candidate source: best chunk of document B. -/
def exB1 : Source := ⟨"b1", "DocB (Section 1)", 10⟩

/-- Example candidate source: tied low-score chunk of document B. -/
def exB2 : Source := ⟨"b2", "DocB (Section 2)", 1⟩

/-- Example candidate source in its own document C. -/
def exC1 : Source := ⟨"c1", "DocC", 7⟩

/-- Example candidate source in its own document D. -/
def exD1 : Source := ⟨"d1", "DocD", 2⟩

/-- Two documents with two chunks each; the two secondary chunks tie. -/
def ex9 : List Source := [exA1, exA2, exB1, exB2]

/-- Four candidates spread over four distinct documents. -/
def ex4docs : List Source := [exA1, exB1, exC1, exD1]

/-- A benign oracle environment: empty retrievals, parseable high
confidence, a helpful verdict. -/
def envBase : Env :=
  { fingerprint := fun s => s
    searchLocal := fun _ => []
    searchPubMed := fun _ => []
    llmIntent := fun _ => .ok ("education")
    llmConfidence := fun _ _ => .ok ("0.9")
    llmGenerate := fun _ _ _ => .ok ("answer")
    llmHelpfulness := fun _ _ => .ok ("Y")
    llmRefine := fun _ _ => .ok ("refined") }

/-- Environment whose model always judges the answer unhelpful. -/
def envN : Env := { envBase with llmHelpfulness := fun _ _ => .ok ("N") }

/-- Environment whose model answers the helpfulness rubric with an
ambiguous non-verdict. -/
def envMaybe : Env := { envBase with llmHelpfulness := fun _ _ => .ok ("MAYBE") }

/-- Environment whose model answers the scoring prompt unparseably. -/
def envBadConf : Env := { envBase with llmConfidence := fun _ _ => .ok ("not a number") }

/-- Environment whose model answers the scoring prompt with a low score. -/
def envLowConf : Env := { envBase with llmConfidence := fun _ _ => .ok ("0.2") }

/-- Environment whose model classifies the intent as an unknown word. -/
def envGibberish : Env := { envBase with llmIntent := fun _ => .ok ("banana") }

/-- Environment whose intent-classification call raises. -/
def envIntentRaise : Env := { envBase with llmIntent := fun _ => .error ("boom") }

/-- A cache entry holding a non-empty answer. -/
def entryStored : CacheData := ⟨[], "ctx", "stored answer", 0⟩

/-- A cache entry holding an empty answer. -/
def entryEmpty : CacheData := ⟨[], "ctx", "", 0⟩

/-! ## Node-level inversion lemmas -/

theorem analyzeQuery_ok_iff {env : Env} {s s1 : AgentState} :
    analyzeQuery env s = .ok s1 ↔
      ∃ c, env.llmIntent s.query = .ok c ∧ s1 = { s with next_action := pyLower (pyStrip c) } := by
  unfold analyzeQuery
  cases h : env.llmIntent s.query <;> simp [Except.map, h, eq_comm]

theorem evaluateConfidence_ok_iff {env : Env} {s s1 : AgentState} :
    evaluateConfidence env s = .ok s1 ↔
      ∃ c, env.llmConfidence s.query s.local_rag_results = .ok c ∧
        s1 = { s with local_confidence :=
                 match pyFloat? (pyStrip c) with
                 | some v => max 0 (min 1 v)
                 | none => mkRat 3 10 } := by
  unfold evaluateConfidence
  cases h : env.llmConfidence s.query s.local_rag_results <;> simp [Except.map, h, eq_comm]

theorem generateResponse_ok_iff {env : Env} {s s1 : AgentState} :
    generateResponse env s = .ok s1 ↔
      ∃ c, env.llmGenerate s.query s.context s.next_action = .ok c ∧
        s1 = { s with response := c } := by
  unfold generateResponse
  cases h : env.llmGenerate s.query s.context s.next_action <;> simp [Except.map, h, eq_comm]

theorem evaluateHelpfulness_ok_iff {env : Env} {s s1 : AgentState} :
    evaluateHelpfulness env s = .ok s1 ↔
      ∃ c, env.llmHelpfulness s.query s.response = .ok c ∧
        s1 = { s with helpfulness_score := if (pyUpper (pyStrip c)).data.contains 'Y' then "Y" else "N" } := by
  unfold evaluateHelpfulness
  cases h : env.llmHelpfulness s.query s.response with
  | error e => simp [Except.map]
  | ok c0 =>
    simp only [Except.map]
    constructor
    · intro hh
      exact ⟨c0, rfl, (Except.ok.injEq _ _).mp hh.symm⟩
    · rintro ⟨c, hc, rfl⟩
      obtain rfl : c0 = c := (Except.ok.injEq _ _).mp hc
      rfl

theorem refineResponse_ok_iff {env : Env} {s s1 : AgentState} :
    refineResponse env s = .ok s1 ↔
      ∃ c, env.llmRefine s.query s.response = .ok c ∧
        s1 = { s with query := pyStrip c, attempt_count := s.attempt_count + 1,
                      messages := s.messages ++
                        ["Refining query (attempt " ++ toString (s.attempt_count + 1) ++ "/" ++
                          toString s.max_attempts ++ "): " ++ pyStrip c] } := by
  unfold refineResponse
  cases h : env.llmRefine s.query s.response <;> simp [Except.map, h, eq_comm]

theorem checkCache_of_some {env : Env} {cache : Cache} {s : AgentState} {d : CacheData}
    (h : List.lookup (env.fingerprint s.query) cache = some d) :
    checkCache env cache s =
      { s with cache_key := env.fingerprint s.query, cache_hit := true,
               pubmed_results := d.pubmed_results, context := d.context,
               response := d.response } := by
  simp [checkCache, h]

theorem checkCache_of_none {env : Env} {cache : Cache} {s : AgentState}
    (h : List.lookup (env.fingerprint s.query) cache = none) :
    checkCache env cache s =
      { s with cache_key := env.fingerprint s.query, cache_hit := false } := by
  simp [checkCache, h]

/-! ## Claim C5 — helpfulness verdict normalisation -/

/-- Claim C5, counterexample: the model reply `"MAYBE"` is not an
unambiguously positive single-token verdict, yet `_evaluate_helpfulness`
normalises it to the helpful verdict `"Y"`, because the code accepts any
reply whose uppercased text contains the letter `Y` anywhere. -/
theorem helpfulness_counterexample :
    (okStateOf (evaluateHelpfulness envMaybe (initialState ("q") 3))).helpfulness_score = "Y" ∧
    ("MAYBE" : String) ≠ "Y" ∧ ("MAYBE" : String) ≠ "YES" := by
  exact ⟨by decide, by decide, by decide⟩

/-- Claim C5 (amended): the helpfulness evaluator stores only `"Y"` or
`"N"`, and it stores the helpful verdict `"Y"` exactly when the stripped,
uppercased model reply contains the character `Y` (so the single token `Y`
is helpful, any reply without a `y`/`Y` is not helpful, but an ambiguous
reply containing a `Y` is also accepted as helpful). -/
theorem helpfulness_contains_y (env : Env) (s s' : AgentState)
    (h : evaluateHelpfulness env s = .ok s') :
    (s'.helpfulness_score = "Y" ∨ s'.helpfulness_score = "N") ∧
    ∀ c, env.llmHelpfulness s.query s.response = .ok c →
      (s'.helpfulness_score = "Y" ↔ ((pyUpper (pyStrip c)).data.contains 'Y') = true) := by
  rw [evaluateHelpfulness_ok_iff] at h
  obtain ⟨c0, hc0, rfl⟩ := h
  constructor
  · by_cases hY : ((pyUpper (pyStrip c0)).data.contains 'Y') = true <;> simp [hY] <;> exact em _
  · intro c hc
    rw [hc0] at hc
    have he : c0 = c := (Except.ok.injEq _ _).mp hc
    rw [← he]
    by_cases hY : ((pyUpper (pyStrip c0)).data.contains 'Y') = true <;> simp [hY]

/-- Claim C5 witness: with a model that answers the single positive token
`"Y"`, the verdict is helpful; the stored score is one of `"Y"`/`"N"`. -/
theorem helpfulness_contains_y_witness :
    (okStateOf (evaluateHelpfulness envBase (initialState ("q") 3))).helpfulness_score = "Y" ∨
    (okStateOf (evaluateHelpfulness envBase (initialState ("q") 3))).helpfulness_score = "N" :=
  (helpfulness_contains_y envBase (initialState ("q") 3) _ rfl).1

/-! ## Claim C7 — confidence score range and parse-failure default -/

/-- Claim C7: the confidence stored by `_evaluate_confidence` always lies
in `[0, 1]` (a parsed value is clamped, the parse-failure default is
`0.3`), and on a parse failure the stored value is exactly `0.3`, which is
below the `0.7` threshold, so `_route_based_on_confidence` routes the run
to the PubMed search. -/
theorem confidence_in_range (env : Env) (s s' : AgentState)
    (h : evaluateConfidence env s = .ok s') :
    0 ≤ s'.local_confidence ∧ s'.local_confidence ≤ 1 ∧
    ∀ c, env.llmConfidence s.query s.local_rag_results = .ok c →
      pyFloat? (pyStrip c) = none →
        s'.local_confidence = mkRat 3 10 ∧ routeBasedOnConfidence s' = "search_pubmed" := by
  rw [evaluateConfidence_ok_iff] at h
  obtain ⟨c0, hc0, rfl⟩ := h
  refine ⟨?_, ?_, ?_⟩
  · cases hp : pyFloat? (pyStrip c0) with
    | none => simp [hp]
    | some v => simp [hp]
  · cases hp : pyFloat? (pyStrip c0) with
    | none => simp [hp]; decide
    | some v =>
      simp only [hp]
      exact max_le (by norm_num) (min_le_left _ _)
  · intro c hc hparse
    rw [hc0] at hc
    have he : c0 = c := (Except.ok.injEq _ _).mp hc
    rw [← he] at hparse
    constructor
    · simp [hparse]
    · rw [routeBasedOnConfidence]
      simp only [hparse]
      rw [if_neg (by decide)]

/-- Claim C7 witness: a model reply that does not parse as a float yields
the stored confidence `0.3` and routes to the PubMed search. -/
theorem confidence_in_range_witness :
    (okStateOf (evaluateConfidence envBadConf (initialState ("q") 3))).local_confidence = mkRat 3 10 ∧
    routeBasedOnConfidence (okStateOf (evaluateConfidence envBadConf (initialState ("q") 3))) =
      "search_pubmed" :=
  ((confidence_in_range envBadConf (initialState ("q") 3) _ rfl).2.2) _ rfl (by decide)

/-! ## Claim C1 — cache hits bypass all collaborators -/

/-- Characterisation of a cache-hit run of `query`: the graph goes from
`check_cache` straight to `finalize_response`, no collaborator is invoked
(the trace holds only the fingerprint computation), the cache is untouched,
and the returned answer is the stored one — unless the stored answer is
empty, in which case the apology fallback of `query` replaces it. -/
theorem queryAgent_hit_eq (env : Env) (cache : Cache) (q : String) (maxA : Nat)
    (e : CacheData) (h : List.lookup (env.fingerprint q) cache = some e) :
    queryAgent env cache q maxA =
      (cache,
       { response := if e.response = "" then apologyMsg else e.response,
         pubmed_sources := e.pubmed_results, local_sources := [],
         context_used := e.context, helpfulness_score := some "",
         attempts := some 1 },
       [Ev.fingerprint]) := by
  have hq : (initialState q maxA).query = q := rfl
  unfold queryAgent runGraph
  rw [checkCache_of_some (by rw [hq]; exact h)]
  simp [routeCacheDecision, finalizeResponse, initialState]

/-- Claim C1, counterexample: a cache entry whose stored answer is the
empty string exists under the query's fingerprint, yet the repeat call
returns the apology fallback instead of that stored answer. -/
theorem cache_hit_counterexample :
    List.lookup (envBase.fingerprint ("q")) [("q", entryEmpty)] = some entryEmpty ∧
    (queryAgent envBase [("q", entryEmpty)] ("q") 3).2.1.response ≠ entryEmpty.response := by
  exact ⟨by decide, by decide⟩

/-- Claim C1 (amended): for every query with an existing cache entry under
its fingerprint whose stored answer is non-empty, a repeat call returns
exactly that stored answer, leaves the cache unchanged, and invokes none of
the Similarity Retriever, the External Knowledge Retriever or the Language
Model Service: the trace holds only the fingerprint computation of
`check_cache`.  (An empty stored answer is replaced by the apology
fallback, see the counterexample.) -/
theorem cache_hit_returns_cached (env : Env) (cache : Cache) (q : String) (maxA : Nat)
    (e : CacheData) (h : List.lookup (env.fingerprint q) cache = some e)
    (hne : e.response ≠ "") :
    (queryAgent env cache q maxA).1 = cache ∧
    (queryAgent env cache q maxA).2.1.response = e.response ∧
    (queryAgent env cache q maxA).2.2 = [Ev.fingerprint] := by
  rw [queryAgent_hit_eq env cache q maxA e h]
  simp [hne]

/-- Claim C1 witness: a concrete cache entry with a non-empty stored
answer is returned verbatim with a collaborator-free trace. -/
theorem cache_hit_returns_cached_witness :
    (queryAgent envBase [("q", entryStored)] ("q") 3).1 = [("q", entryStored)] ∧
    (queryAgent envBase [("q", entryStored)] ("q") 3).2.1.response = entryStored.response ∧
    (queryAgent envBase [("q", entryStored)] ("q") 3).2.2 = [Ev.fingerprint] :=
  cache_hit_returns_cached envBase [("q", entryStored)] ("q") 3 entryStored (by decide) (by decide)

/-! ## Claim C8 — intent-classification failure -/

/-- Claim C8, counterexample: an unclassifiable model reply (`"banana"`)
is stored verbatim as the intent — the run does not degrade to the
`general_advice` intent; and when the classification call raises, the
workflow aborts immediately (the trace stops at the intent call: no
retrieval, no further model call) and the top-level handler returns the
apologetic error answer.  Both facts refute "degrades to the
general-advice intent and continues through the workflow". -/
theorem intent_counterexample :
    (okStateOf (analyzeQuery envGibberish (initialState ("q") 3))).next_action = "banana" ∧
    ("banana" : String) ≠ "general_advice" ∧
    (queryAgent envIntentRaise [] ("q") 3).2.2 = [Ev.fingerprint, Ev.llmIntent] ∧
    (queryAgent envIntentRaise [] ("q") 3).2.1.response =
      "I encountered an error while processing your query: boom" := by
  exact ⟨by decide, by decide, by decide, by decide⟩

/-- Claim C8 (amended): (i) if the intent-classification call raises on a
cache miss, the exception propagates — the run aborts with no further
collaborator invocation, the cache is untouched, and the caller receives
the apologetic top-level error answer (the process does not crash);
(ii) an unclassifiable reply is not replaced by `general_advice`: the
stripped, lowercased reply is stored verbatim in `next_action` and the
workflow continues; (iii) the intent is read only by the generation step,
where it merely selects the prompt template (third oracle argument). -/
theorem intent_failure_behavior :
    (∀ (env : Env) (cache : Cache) (q : String) (maxA : Nat) (e : String),
      env.llmIntent q = .error e →
      List.lookup (env.fingerprint q) cache = none →
      queryAgent env cache q maxA =
        (cache,
         { response := "I encountered an error while processing your query: " ++ e,
           pubmed_sources := [], local_sources := [], context_used := "",
           helpfulness_score := none, attempts := none },
         [Ev.fingerprint, Ev.llmIntent])) ∧
    (∀ (env : Env) (s : AgentState) (c : String),
      env.llmIntent s.query = .ok c →
      analyzeQuery env s = .ok { s with next_action := pyLower (pyStrip c) }) ∧
    (∀ (env : Env) (s : AgentState),
      generateResponse env s =
        (env.llmGenerate s.query s.context s.next_action).map
          (fun c => { s with response := c })) := by
  refine ⟨?_, ?_, ?_⟩
  · intro env cache q maxA e hI hmiss
    have hq : (initialState q maxA).query = q := rfl
    unfold queryAgent runGraph
    rw [checkCache_of_none (by rw [hq]; exact hmiss)]
    simp [routeCacheDecision, initialState, runLoop, runCycle, analyzeQuery, hI, Except.map]
  · intro env s c h
    simp [analyzeQuery, h, Except.map]
  · intro env s
    rfl

/-- Claim C8 witness: with an intent oracle that raises, the amended
description of the abort path holds at a concrete input. -/
theorem intent_failure_behavior_witness :
    queryAgent envIntentRaise [] ("q") 3 =
      ([],
       { response := "I encountered an error while processing your query: " ++ "boom",
         pubmed_sources := [], local_sources := [], context_used := "",
         helpfulness_score := none, attempts := none },
       [Ev.fingerprint, Ev.llmIntent]) :=
  intent_failure_behavior.1 envIntentRaise [] ("q") 3 ("boom") rfl rfl

/-! ## Structural lemmas about one cycle -/

theorem routeConf_skip_iff {s : AgentState} :
    routeBasedOnConfidence s = "skip_pubmed" ↔ mkRat 7 10 ≤ s.local_confidence := by
  unfold routeBasedOnConfidence
  by_cases h : mkRat 7 10 ≤ s.local_confidence <;> simp [h]

theorem routeHelp_refine_iff {s : AgentState} :
    routeBasedOnHelpfulness s = "refine" ↔
      s.helpfulness_score ≠ "Y" ∧ s.attempt_count < s.max_attempts := by
  unfold routeBasedOnHelpfulness
  by_cases h1 : s.helpfulness_score = "Y" <;>
    by_cases h2 : s.max_attempts ≤ s.attempt_count <;> (simp [h1, h2]; try omega)

theorem finalize_pres (s : AgentState) :
    (finalizeResponse s).attempt_count = s.attempt_count ∧
    (finalizeResponse s).max_attempts = s.max_attempts ∧
    (finalizeResponse s).cache_key = s.cache_key ∧
    (finalizeResponse s).helpfulness_score = s.helpfulness_score ∧
    (finalizeResponse s).pubmed_results = s.pubmed_results ∧
    (finalizeResponse s).local_rag_results = s.local_rag_results ∧
    (finalizeResponse s).context = s.context ∧
    (finalizeResponse s).messages = s.messages := by
  unfold finalizeResponse
  split <;> exact ⟨rfl, rfl, rfl, rfl, rfl, rfl, rfl, rfl⟩


theorem analyzeQuery_pres {env : Env} {s s1 : AgentState} (h : analyzeQuery env s = .ok s1) :
    s1.attempt_count = s.attempt_count ∧ s1.max_attempts = s.max_attempts ∧
    s1.cache_key = s.cache_key ∧ s1.local_confidence = s.local_confidence ∧
    s1.query = s.query ∧ s1.messages = s.messages := by
  obtain ⟨c, -, rfl⟩ := analyzeQuery_ok_iff.mp h
  exact ⟨rfl, rfl, rfl, rfl, rfl, rfl⟩

theorem evaluateConfidence_pres {env : Env} {s s1 : AgentState}
    (h : evaluateConfidence env s = .ok s1) :
    s1.attempt_count = s.attempt_count ∧ s1.max_attempts = s.max_attempts ∧
    s1.cache_key = s.cache_key ∧ s1.query = s.query ∧ s1.messages = s.messages := by
  obtain ⟨c, -, rfl⟩ := evaluateConfidence_ok_iff.mp h
  exact ⟨rfl, rfl, rfl, rfl, rfl⟩

theorem generateResponse_pres {env : Env} {s s1 : AgentState}
    (h : generateResponse env s = .ok s1) :
    s1.attempt_count = s.attempt_count ∧ s1.max_attempts = s.max_attempts ∧
    s1.cache_key = s.cache_key ∧ s1.local_confidence = s.local_confidence ∧
    s1.query = s.query ∧ s1.messages = s.messages := by
  obtain ⟨c, -, rfl⟩ := generateResponse_ok_iff.mp h
  exact ⟨rfl, rfl, rfl, rfl, rfl, rfl⟩

theorem evaluateHelpfulness_pres {env : Env} {s s1 : AgentState}
    (h : evaluateHelpfulness env s = .ok s1) :
    s1.attempt_count = s.attempt_count ∧ s1.max_attempts = s.max_attempts ∧
    s1.cache_key = s.cache_key ∧ s1.local_confidence = s.local_confidence ∧
    s1.query = s.query ∧ s1.messages = s.messages ∧ s1.response = s.response := by
  obtain ⟨c, -, rfl⟩ := evaluateHelpfulness_ok_iff.mp h
  exact ⟨rfl, rfl, rfl, rfl, rfl, rfl, rfl⟩

theorem refineResponse_pres {env : Env} {s s1 : AgentState}
    (h : refineResponse env s = .ok s1) :
    s1.attempt_count = s.attempt_count + 1 ∧ s1.max_attempts = s.max_attempts ∧
    s1.cache_key = s.cache_key ∧ s1.response = s.response ∧ s1.context = s.context ∧
    s1.helpfulness_score = s.helpfulness_score ∧
    s1.pubmed_results = s.pubmed_results ∧ s1.local_rag_results = s.local_rag_results ∧
    s1.local_confidence = s.local_confidence := by
  obtain ⟨c, -, rfl⟩ := refineResponse_ok_iff.mp h
  exact ⟨rfl, rfl, rfl, rfl, rfl, rfl, rfl, rfl, rfl⟩

theorem runCycle_ok_inv {env : Env} {s s' : AgentState} {t : List Ev}
    (h : runCycle env s = (.ok s', t)) :
    s'.attempt_count = s.attempt_count ∧ s'.max_attempts = s.max_attempts ∧
    s'.cache_key = s.cache_key ∧
    t = [Ev.llmIntent, Ev.localSearch, Ev.llmConfidence] ++
        (if mkRat 7 10 ≤ s'.local_confidence then [] else [Ev.pubmedSearch]) ++
        [Ev.synthesize, Ev.llmGenerate, Ev.llmHelpfulness] := by
  unfold runCycle at h
  cases h1 : analyzeQuery env s with
  | error e => rw [h1] at h; simp at h
  | ok s1 =>
    rw [h1] at h
    dsimp only [] at h
    cases h2 : evaluateConfidence env (searchLocalNode env s1) with
    | error e => rw [h2] at h; simp at h
    | ok s3 =>
      rw [h2] at h
      dsimp only [] at h
      obtain ⟨a1, m1, k1, l1, -, -⟩ := analyzeQuery_pres h1
      obtain ⟨a2, m2, k2, -, -⟩ := evaluateConfidence_pres h2
      split at h
      next hroute =>
        cases h3 : generateResponse env (synthesizeInformation s3) with
        | error e => rw [h3] at h; simp at h
        | ok s5 =>
          rw [h3] at h
          dsimp only [] at h
          cases h4 : evaluateHelpfulness env s5 with
          | error e => rw [h4] at h; simp at h
          | ok s6 =>
            rw [h4] at h
            dsimp only [] at h
            injection h with hfst hsnd
            injection hfst with hfst
            subst hsnd
            rw [← hfst]
            obtain ⟨a3, m3, k3, l3, -, -⟩ := generateResponse_pres h3
            obtain ⟨a4, m4, k4, l4, -, -, -⟩ := evaluateHelpfulness_pres h4
            have p1 : (searchLocalNode env s1).attempt_count = s1.attempt_count := rfl
            have p2 : (searchLocalNode env s1).max_attempts = s1.max_attempts := rfl
            have p3 : (synthesizeInformation s3).attempt_count = s3.attempt_count := rfl
            have p4 : (synthesizeInformation s3).max_attempts = s3.max_attempts := rfl
            have plc : (synthesizeInformation s3).local_confidence = s3.local_confidence := rfl
            have hlc : s6.local_confidence = s3.local_confidence := l4.trans (l3.trans plc)
            have hle : mkRat 7 10 ≤ s6.local_confidence := by
              rw [hlc]; exact routeConf_skip_iff.mp hroute
            refine ⟨by omega, by omega, ?_, ?_⟩
            · have q1 : (searchLocalNode env s1).cache_key = s1.cache_key := rfl
              have q2 : (synthesizeInformation s3).cache_key = s3.cache_key := rfl
              rw [k4, k3, q2, k2, q1, k1]
            · rw [if_pos hle]; rfl
      next hroute =>
        cases h3 : generateResponse env (synthesizeInformation (searchPubmedNode env s3)) with
        | error e => rw [h3] at h; simp at h
        | ok s5 =>
          rw [h3] at h
          dsimp only [] at h
          cases h4 : evaluateHelpfulness env s5 with
          | error e => rw [h4] at h; simp at h
          | ok s6 =>
            rw [h4] at h
            dsimp only [] at h
            injection h with hfst hsnd
            injection hfst with hfst
            subst hsnd
            rw [← hfst]
            obtain ⟨a3, m3, k3, l3, -, -⟩ := generateResponse_pres h3
            obtain ⟨a4, m4, k4, l4, -, -, -⟩ := evaluateHelpfulness_pres h4
            have p1 : (searchLocalNode env s1).attempt_count = s1.attempt_count := rfl
            have p2 : (searchLocalNode env s1).max_attempts = s1.max_attempts := rfl
            have p3 : (synthesizeInformation (searchPubmedNode env s3)).attempt_count =
                s3.attempt_count := rfl
            have p4 : (synthesizeInformation (searchPubmedNode env s3)).max_attempts =
                s3.max_attempts := rfl
            have plc : (synthesizeInformation (searchPubmedNode env s3)).local_confidence =
                s3.local_confidence := rfl
            have hlc : s6.local_confidence = s3.local_confidence := l4.trans (l3.trans plc)
            have hle : ¬ mkRat 7 10 ≤ s6.local_confidence := by
              rw [hlc]
              intro hcontra
              exact hroute (routeConf_skip_iff.mpr hcontra)
            refine ⟨by omega, by omega, ?_, ?_⟩
            · have q1 : (searchLocalNode env s1).cache_key = s1.cache_key := rfl
              have q2 : (synthesizeInformation (searchPubmedNode env s3)).cache_key =
                  s3.cache_key := rfl
              rw [k4, k3, q2, k2, q1, k1]
            · rw [if_neg hle]; rfl

theorem runCycle_trace_events (env : Env) (s : AgentState) :
    ((runCycle env s).2).count Ev.llmGenerate ≤ 1 ∧
    Ev.fingerprint ∉ (runCycle env s).2 := by
  unfold runCycle
  cases analyzeQuery env s with
  | error e => dsimp only []; exact ⟨by decide, by decide⟩
  | ok s1 =>
    dsimp only []
    cases evaluateConfidence env (searchLocalNode env s1) with
    | error e => dsimp only []; exact ⟨by decide, by decide⟩
    | ok s3 =>
      dsimp only []
      split
      · cases generateResponse env (synthesizeInformation s3) with
        | error e => dsimp only []; exact ⟨by decide, by decide⟩
        | ok s5 =>
          dsimp only []
          cases evaluateHelpfulness env s5 with
          | error e => dsimp only []; exact ⟨by decide, by decide⟩
          | ok s6 => dsimp only []; exact ⟨by decide, by decide⟩
      · cases generateResponse env (synthesizeInformation (searchPubmedNode env s3)) with
        | error e => dsimp only []; exact ⟨by decide, by decide⟩
        | ok s5 =>
          dsimp only []
          cases evaluateHelpfulness env s5 with
          | error e => dsimp only []; exact ⟨by decide, by decide⟩
          | ok s6 => dsimp only []; exact ⟨by decide, by decide⟩

/-! ## Structural lemmas about the refinement loop -/

theorem runLoop_ok_inv (env : Env) :
    ∀ (fuel : Nat) (s s' : AgentState) (t : List Ev),
      runLoop env fuel s = (.ok s', t) →
      s.attempt_count ≤ s'.attempt_count ∧ s'.max_attempts = s.max_attempts ∧
      s'.cache_key = s.cache_key ∧
      (s.attempt_count ≤ s.max_attempts → s'.attempt_count ≤ s.max_attempts) := by
  intro fuel
  induction fuel with
  | zero =>
    intro s s' t h
    simp [runLoop] at h
  | succ n ih =>
    intro s s' t h
    rw [runLoop] at h
    cases hc : runCycle env s with
    | mk out tc =>
      rw [hc] at h
      cases out with
      | error e => simp at h
      | ok s1 =>
        dsimp only [] at h
        obtain ⟨ac, mc, kc, -⟩ := runCycle_ok_inv hc
        split at h
        next hroute =>
          cases hr : refineResponse env s1 with
          | error e => rw [hr] at h; simp at h
          | ok s2 =>
            rw [hr] at h
            dsimp only [] at h
            injection h with hfst hsnd
            have hl : runLoop env n s2 = (.ok s', (runLoop env n s2).2) := by
              rw [← hfst]
            obtain ⟨ai, mi, ki, bi⟩ := ih s2 s' (runLoop env n s2).2 hl
            obtain ⟨ar, mr, kr, -, -, -, -, -, -⟩ := refineResponse_pres hr
            obtain ⟨-, hlt⟩ := routeHelp_refine_iff.mp hroute
            refine ⟨by omega, by omega, by rw [ki, kr, kc], by omega⟩
        next hroute =>
          injection h with hfst hsnd
          injection hfst with hfst
          subst hsnd
          rw [← hfst]
          exact ⟨by omega, by omega, kc, by omega⟩

theorem runLoop_fuel_sufficient (env : Env) :
    ∀ (fuel : Nat) (s : AgentState),
      s.max_attempts - s.attempt_count + 1 ≤ fuel →
      (runLoop env fuel s).1 ≠ RunOut.fuelOut := by
  intro fuel
  induction fuel with
  | zero => intro s hs; omega
  | succ n ih =>
    intro s hs
    rw [runLoop]
    cases hc : runCycle env s with
    | mk out tc =>
      cases out with
      | error e => simp
      | ok s1 =>
        dsimp only []
        obtain ⟨ac, mc, -, -⟩ := runCycle_ok_inv hc
        split
        next hroute =>
          cases hr : refineResponse env s1 with
          | error e => simp
          | ok s2 =>
            dsimp only []
            obtain ⟨ar, mr, -, -, -, -, -, -, -⟩ := refineResponse_pres hr
            obtain ⟨-, hlt⟩ := routeHelp_refine_iff.mp hroute
            exact ih s2 (by omega)
        next hroute => simp

theorem runLoop_trace_events (env : Env) :
    ∀ (fuel : Nat) (s : AgentState),
      ((runLoop env fuel s).2).count Ev.llmGenerate ≤ s.max_attempts - s.attempt_count + 1 ∧
      Ev.fingerprint ∉ (runLoop env fuel s).2 := by
  intro fuel
  induction fuel with
  | zero => intro s; simp [runLoop]
  | succ n ih =>
    intro s
    rw [runLoop]
    cases hc : runCycle env s with
    | mk out tc =>
      obtain ⟨hgen, hfp⟩ : tc.count Ev.llmGenerate ≤ 1 ∧ Ev.fingerprint ∉ tc := by
        have := runCycle_trace_events env s
        rw [hc] at this
        exact this
      cases out with
      | error e => exact ⟨by simpa using by omega, by simpa using hfp⟩
      | ok s1 =>
        dsimp only []
        obtain ⟨ac, mc, -, -⟩ := runCycle_ok_inv hc
        split
        next hroute =>
          cases hr : refineResponse env s1 with
          | error e =>
            dsimp only []
            constructor
            · simp [List.count_append]
              omega
            · simp
              exact hfp
          | ok s2 =>
            dsimp only []
            obtain ⟨ar, mr, -, -, -, -, -, -, -⟩ := refineResponse_pres hr
            obtain ⟨-, hlt⟩ := routeHelp_refine_iff.mp hroute
            obtain ⟨ihg, ihf⟩ := ih s2
            constructor
            · simp [List.count_append]
              omega
            · simp
              exact ⟨hfp, ihf⟩
        next hroute =>
          exact ⟨by simpa using by omega, by simpa using hfp⟩

theorem runCycle_messages {env : Env} {s s' : AgentState} {t : List Ev}
    (h : runCycle env s = (.ok s', t)) : s'.messages = s.messages := by
  unfold runCycle at h
  cases h1 : analyzeQuery env s with
  | error e => rw [h1] at h; simp at h
  | ok s1 =>
    rw [h1] at h
    dsimp only [] at h
    cases h2 : evaluateConfidence env (searchLocalNode env s1) with
    | error e => rw [h2] at h; simp at h
    | ok s3 =>
      rw [h2] at h
      dsimp only [] at h
      obtain ⟨-, -, -, -, -, g1⟩ := analyzeQuery_pres h1
      obtain ⟨-, -, -, -, g2⟩ := evaluateConfidence_pres h2
      split at h
      next hroute =>
        cases h3 : generateResponse env (synthesizeInformation s3) with
        | error e => rw [h3] at h; simp at h
        | ok s5 =>
          rw [h3] at h
          dsimp only [] at h
          cases h4 : evaluateHelpfulness env s5 with
          | error e => rw [h4] at h; simp at h
          | ok s6 =>
            rw [h4] at h
            dsimp only [] at h
            injection h with hfst hsnd
            injection hfst with hfst
            rw [← hfst]
            obtain ⟨-, -, -, -, -, g3⟩ := generateResponse_pres h3
            obtain ⟨-, -, -, -, -, g4, -⟩ := evaluateHelpfulness_pres h4
            have p1 : (searchLocalNode env s1).messages = s1.messages := rfl
            have p2 : (synthesizeInformation s3).messages = s3.messages := rfl
            rw [g4, g3, p2, g2, p1, g1]
      next hroute =>
        cases h3 : generateResponse env (synthesizeInformation (searchPubmedNode env s3)) with
        | error e => rw [h3] at h; simp at h
        | ok s5 =>
          rw [h3] at h
          dsimp only [] at h
          cases h4 : evaluateHelpfulness env s5 with
          | error e => rw [h4] at h; simp at h
          | ok s6 =>
            rw [h4] at h
            dsimp only [] at h
            injection h with hfst hsnd
            injection hfst with hfst
            rw [← hfst]
            obtain ⟨-, -, -, -, -, g3⟩ := generateResponse_pres h3
            obtain ⟨-, -, -, -, -, g4, -⟩ := evaluateHelpfulness_pres h4
            have p1 : (searchLocalNode env s1).messages = s1.messages := rfl
            have p2 : (synthesizeInformation (searchPubmedNode env s3)).messages =
                s3.messages := rfl
            rw [g4, g3, p2, g2, p1, g1]

theorem refineResponse_messages {env : Env} {s s1 : AgentState}
    (h : refineResponse env s = .ok s1) :
    ∃ m, s1.messages = s.messages ++ [m] ∧ 28 ≤ m.length := by
  obtain ⟨c, -, rfl⟩ := refineResponse_ok_iff.mp h
  refine ⟨_, rfl, ?_⟩
  have h1 : ("Refining query (attempt " : String).length = 24 := by decide
  have h2 : ("/" : String).length = 1 := by decide
  have h3 : ("): " : String).length = 3 := by decide
  simp only [String.length_append, h1, h2, h3]
  omega

theorem runLoop_messages_inv (env : Env) :
    ∀ (fuel : Nat) (s s' : AgentState) (t : List Ev),
      runLoop env fuel s = (.ok s', t) →
      (∀ m ∈ s.messages, 28 ≤ m.length) →
      (1 < s.attempt_count → s.messages ≠ []) →
      (∀ m ∈ s'.messages, 28 ≤ m.length) ∧
      (1 < s'.attempt_count → s'.messages ≠ []) := by
  intro fuel
  induction fuel with
  | zero =>
    intro s s' t h hlen hne
    simp [runLoop] at h
  | succ n ih =>
    intro s s' t h hlen hne
    rw [runLoop] at h
    cases hc : runCycle env s with
    | mk out tc =>
      rw [hc] at h
      cases out with
      | error e => simp at h
      | ok s1 =>
        dsimp only [] at h
        have hm1 : s1.messages = s.messages := runCycle_messages hc
        obtain ⟨ha1, -, -, -⟩ := runCycle_ok_inv hc
        split at h
        next hroute =>
          cases hr : refineResponse env s1 with
          | error e => rw [hr] at h; simp at h
          | ok s2 =>
            rw [hr] at h
            dsimp only [] at h
            injection h with hfst hsnd
            have hl : runLoop env n s2 = (.ok s', (runLoop env n s2).2) := by
              rw [← hfst]
            obtain ⟨m, hmeq, hmlen⟩ := refineResponse_messages hr
            refine ih s2 s' (runLoop env n s2).2 hl ?_ ?_
            · intro x hx
              rw [hmeq, hm1] at hx
              rcases List.mem_append.mp hx with hx1 | hx2
              · exact hlen x hx1
              · rw [List.mem_singleton.mp hx2]
                exact hmlen
            · intro hgt
              rw [hmeq]
              simp
        next hroute =>
          injection h with hfst hsnd
          injection hfst with hfst
          rw [← hfst]
          constructor
          · rw [hm1]
            exact hlen
          · rw [hm1, ha1]
            exact hne

theorem getLastD_mem (l : List String) (h : l ≠ []) : (l.getLast?).getD "" ∈ l := by
  induction l with
  | nil => exact absurd rfl h
  | cons a l ih =>
    cases l with
    | nil => simp [List.getLast?]
    | cons b l2 =>
      have hne : (b :: l2) ≠ [] := by simp
      have hm := ih hne
      rw [List.getLast?_cons_cons]
      exact List.mem_cons_of_mem a hm

/-! ## Graph-level helpers -/

theorem runGraph_hit (env : Env) (cache : Cache) (q : String) (maxA : Nat) (d : CacheData)
    (h : List.lookup (env.fingerprint q) cache = some d) :
    runGraph env cache (initialState q maxA) =
      (.ok cache (finalizeResponse (checkCache env cache (initialState q maxA))),
        [Ev.fingerprint]) := by
  unfold runGraph
  dsimp only []
  rw [@checkCache_of_some env cache (initialState q maxA) d h]
  rw [if_pos (by simp [routeCacheDecision])]

theorem runGraph_miss_eq (env : Env) (cache : Cache) (q : String) (maxA : Nat)
    (hmiss : List.lookup (env.fingerprint q) cache = none) :
    runGraph env cache (initialState q maxA) =
      (match runLoop env (maxA - 1 + 1) (checkCache env cache (initialState q maxA)) with
       | (.ok s2, t) => (.ok (cacheResponse cache s2) (finalizeResponse s2), Ev.fingerprint :: t)
       | (.err e, t) => (.err e, Ev.fingerprint :: t)
       | (.fuelOut, t) => (.fuelOut, Ev.fingerprint :: t)) := by
  unfold runGraph
  dsimp only []
  rw [@checkCache_of_none env cache (initialState q maxA) hmiss]
  rw [if_neg (by simp [routeCacheDecision])]
  rfl

/-! ## Claim C2 — attempt counter bounds and termination -/

/-- Claim C2, counterexample: the claim fails for a run invoked with
`maxAttempts = 0`: the attempt counter starts (and ends) at `1`, which
exceeds `maxAttempts`, and the run still performs one full
generate/evaluate cycle (one generation event), exceeding the claimed
bound of at most `maxAttempts` cycles. -/
theorem attempts_counterexample :
    (queryAgent envN [] ("q") 0).2.1.attempts = some 1 ∧
    (queryAgent envN [] ("q") 0).2.2.count Ev.llmGenerate = 1 ∧
    ¬ (1 ≤ (0 : Nat)) := by
  exact ⟨by decide, by decide, by decide⟩

/-- Claim C2 (amended): provided `maxAttempts ≥ 1`, the attempt counter
starts at `1`, is monotonically non-decreasing along the refinement loop,
and the final attempt count lies in `[1, maxAttempts]`; the run performs
at most `maxAttempts` generate/evaluate cycles (generation events in the
trace) and always terminates — the loop's fuel bound is never reached,
for every oracle, including one that returns an identical or empty
refined query on every refinement. -/
theorem attempts_bounded (env : Env) (cache : Cache) (q : String) (maxA : Nat)
    (hmax : 1 ≤ maxA) :
    (initialState q maxA).attempt_count = 1 ∧
    (∀ a, (queryAgent env cache q maxA).2.1.attempts = some a → 1 ≤ a ∧ a ≤ maxA) ∧
    (queryAgent env cache q maxA).2.2.count Ev.llmGenerate ≤ maxA ∧
    (runGraph env cache (initialState q maxA)).1 ≠ GraphOut.fuelOut ∧
    (∀ (fuel : Nat) (u u' : AgentState) (tl : List Ev),
      runLoop env fuel u = (.ok u', tl) → u.attempt_count ≤ u'.attempt_count) := by
  have hmono : ∀ (fuel : Nat) (u u' : AgentState) (tl : List Ev),
      runLoop env fuel u = (.ok u', tl) → u.attempt_count ≤ u'.attempt_count :=
    fun fuel u u' tl h => (runLoop_ok_inv env fuel u u' tl h).1
  cases hlk : List.lookup (env.fingerprint q) cache with
  | some d =>
    have hqa := queryAgent_hit_eq env cache q maxA d hlk
    have hrg := runGraph_hit env cache q maxA d hlk
    refine ⟨rfl, ?_, ?_, ?_, hmono⟩
    · intro a ha
      rw [hqa] at ha
      dsimp only [] at ha
      injection ha with ha
      omega
    · rw [hqa]
      simp
    · rw [hrg]
      simp
  | none =>
    have hrg := runGraph_miss_eq env cache q maxA hlk
    have hrec := @checkCache_of_none env cache (initialState q maxA) hlk
    have hfuel : (runLoop env (maxA - 1 + 1)
        (checkCache env cache (initialState q maxA))).1 ≠ RunOut.fuelOut := by
      apply runLoop_fuel_sufficient
      rw [hrec]
      exact le_refl _
    have htr := runLoop_trace_events env (maxA - 1 + 1)
      (checkCache env cache (initialState q maxA))
    have e1 : (checkCache env cache (initialState q maxA)).attempt_count = 1 := by
      rw [hrec]; rfl
    have e2 : (checkCache env cache (initialState q maxA)).max_attempts = maxA := by
      rw [hrec]; rfl
    rcases hloop : runLoop env (maxA - 1 + 1)
        (checkCache env cache (initialState q maxA)) with ⟨out, tl⟩
    rw [hloop] at hfuel htr hrg
    cases out with
    | ok s2 =>
      obtain ⟨h1, h2, h3, h4⟩ := runLoop_ok_inv env _ _ _ _ hloop
      have h5 : s2.attempt_count ≤
          (checkCache env cache (initialState q maxA)).max_attempts := h4 (by omega)
      have hfa : (finalizeResponse s2).attempt_count = s2.attempt_count := (finalize_pres s2).1
      dsimp only [] at hrg
      refine ⟨rfl, ?_, ?_, ?_, hmono⟩
      · intro a ha
        unfold queryAgent at ha
        rw [hrg] at ha
        dsimp only [] at ha
        injection ha with ha
        omega
      · unfold queryAgent
        rw [hrg]
        dsimp only []
        have hc := htr.1
        dsimp only [] at hc
        simp [List.count_cons]
        omega
      · rw [hrg]
        simp
    | err e =>
      dsimp only [] at hrg
      refine ⟨rfl, ?_, ?_, ?_, hmono⟩
      · intro a ha
        unfold queryAgent at ha
        rw [hrg] at ha
        dsimp only [] at ha
        exact absurd ha (by simp)
      · unfold queryAgent
        rw [hrg]
        dsimp only []
        have hc := htr.1
        dsimp only [] at hc
        simp [List.count_cons]
        omega
      · rw [hrg]
        simp
    | fuelOut => exact absurd rfl hfuel

/-- Claim C2 witness: a concrete helpful run with `maxAttempts = 3` stays
within the cycle bound and never hits the loop's fuel bound. -/
theorem attempts_bounded_witness :
    (queryAgent envBase [] ("q") 3).2.2.count Ev.llmGenerate ≤ 3 ∧
    (runGraph envBase [] (initialState ("q") 3)).1 ≠ GraphOut.fuelOut := by
  have h := attempts_bounded envBase [] ("q") 3 (by norm_num)
  exact ⟨h.2.2.1, h.2.2.2.1⟩

/-! ## Claim C3 — confidence threshold gates the PubMed search -/

/-- Claim C3: in every successful analyze cycle, if the computed
confidence is at least `0.7` the PubMed search is not invoked in that
cycle, and if it is below `0.7` the PubMed search is invoked exactly once,
before the synthesis step. -/
theorem confidence_gates_pubmed (env : Env) (s s' : AgentState) (t : List Ev)
    (h : runCycle env s = (.ok s', t)) :
    (mkRat 7 10 ≤ s'.local_confidence → t.count Ev.pubmedSearch = 0) ∧
    (s'.local_confidence < mkRat 7 10 →
      t.count Ev.pubmedSearch = 1 ∧
      t.indexOf Ev.pubmedSearch < t.indexOf Ev.synthesize) := by
  obtain ⟨-, -, -, ht⟩ := runCycle_ok_inv h
  subst ht
  by_cases hc : mkRat 7 10 ≤ s'.local_confidence
  · rw [if_pos hc]
    exact ⟨fun _ => by decide, fun hlt => absurd hc (not_le.mpr hlt)⟩
  · rw [if_neg hc]
    exact ⟨fun hge => absurd hge hc, fun _ => ⟨by decide, by decide⟩⟩

/-- Claim C3 witness: with a model scoring `0.2`, the cycle invokes the
PubMed search exactly once, before synthesis. -/
theorem confidence_gates_pubmed_witness :
    ((runCycle envLowConf (initialState ("q") 3)).2).count Ev.pubmedSearch = 1 ∧
    ((runCycle envLowConf (initialState ("q") 3)).2).indexOf Ev.pubmedSearch <
      ((runCycle envLowConf (initialState ("q") 3)).2).indexOf Ev.synthesize := by
  have h := confidence_gates_pubmed envLowConf (initialState ("q") 3)
    (okStateOf (runCycle envLowConf (initialState ("q") 3)).1)
    ((runCycle envLowConf (initialState ("q") 3)).2) (by rfl)
  exact h.2 (by decide)

/-! ## Claim C6 — the cache key is derived once, from the original query -/

/-- Claim C6: (i) a refinement step rewrites the working query text,
increments the attempt counter and appends a log message, but leaves every
other field — in particular the cache key — unchanged; (ii) on a cache
miss the fingerprint is computed exactly once (at `check_cache`), the
state's cache key equals the original query's fingerprint throughout the
run, and the entry written at the end is keyed by that fingerprint, no
matter how many refinements occurred. -/
theorem cache_key_stable :
    (∀ (env : Env) (s s' : AgentState), refineResponse env s = .ok s' →
      s'.cache_key = s.cache_key ∧ s'.response = s.response ∧ s'.context = s.context ∧
      s'.helpfulness_score = s.helpfulness_score ∧
      s'.pubmed_results = s.pubmed_results ∧ s'.local_rag_results = s.local_rag_results ∧
      s'.max_attempts = s.max_attempts ∧ s'.attempt_count = s.attempt_count + 1) ∧
    (∀ (env : Env) (cache : Cache) (q : String) (maxA : Nat) (s2 : AgentState) (t : List Ev),
      List.lookup (env.fingerprint q) cache = none →
      runLoop env (maxA - 1 + 1) (checkCache env cache (initialState q maxA)) = (.ok s2, t) →
      s2.cache_key = env.fingerprint q ∧
      runGraph env cache (initialState q maxA) =
        (.ok ((env.fingerprint q, cacheDataOf s2) :: cache) (finalizeResponse s2),
          Ev.fingerprint :: t) ∧
      (Ev.fingerprint :: t).count Ev.fingerprint = 1) := by
  constructor
  · intro env s s' h
    obtain ⟨ar, mr, kr, rr, cr, hr, pr, lr, -⟩ := refineResponse_pres h
    exact ⟨kr, rr, cr, hr, pr, lr, mr, ar⟩
  · intro env cache q maxA s2 t hmiss hloop
    have hrg := runGraph_miss_eq env cache q maxA hmiss
    rw [hloop] at hrg
    dsimp only [] at hrg
    have hrec := @checkCache_of_none env cache (initialState q maxA) hmiss
    obtain ⟨-, -, kk, -⟩ := runLoop_ok_inv env _ _ _ _ hloop
    have hkey : s2.cache_key = env.fingerprint q := by
      rw [kk, hrec]; rfl
    have hfp : Ev.fingerprint ∉ t := by
      have hh := (runLoop_trace_events env (maxA - 1 + 1)
        (checkCache env cache (initialState q maxA))).2
      rw [hloop] at hh
      exact hh
    refine ⟨hkey, ?_, ?_⟩
    · rw [hrg]
      unfold cacheResponse
      rw [hkey]
    · simp [List.count_cons, List.count_eq_zero.mpr hfp]

/-- Claim C6 witness: a concrete miss run writes its entry under the
original query's fingerprint and the trace holds exactly one fingerprint
computation. -/
theorem cache_key_stable_witness :
    (runOutState (runLoop envBase (3 - 1 + 1)
        (checkCache envBase [] (initialState ("q") 3))).1).cache_key =
      envBase.fingerprint ("q") ∧
    (Ev.fingerprint :: (runLoop envBase (3 - 1 + 1)
        (checkCache envBase [] (initialState ("q") 3))).2).count Ev.fingerprint = 1 := by
  have h := cache_key_stable.2 envBase [] ("q") 3
    (runOutState (runLoop envBase (3 - 1 + 1)
      (checkCache envBase [] (initialState ("q") 3))).1)
    ((runLoop envBase (3 - 1 + 1) (checkCache envBase [] (initialState ("q") 3))).2)
    (by rfl) (by rfl)
  exact ⟨h.1, h.2.2⟩

/-! ## Claim C10 — the cached answer differs from the caller's answer -/

set_option maxRecDepth 4000 in
theorem noteWrap_length (r : String) (n : Nat) :
    (noteWrap r n).length = r.length + (toString n).length + 215 := by
  have hA : ("\n            " : String).length = 13 := by decide
  have hB : ("\n            \n            Note: I've made " : String).length = 42 := by decide
  have hC : ((" attempts to provide the most helpful response possible.\n            If you need more specific information, please consider refining your question.\n            ") : String).length = 160 := by decide
  simp [noteWrap, String.length_append, hA, hB, hC]
  omega

theorem noteWrap_ne_empty (r : String) (n : Nat) : noteWrap r n ≠ "" := by
  intro h
  have hl := congrArg String.length h
  rw [noteWrap_length] at hl
  simp at hl

/-- Claim C10: on every successful cache-miss run, the cache write happens
strictly before finalization, so the stored entry holds the bare generated
response.  When the run ends with an unhelpful verdict at the attempt cap,
the caller receives the note-wrapped response (plus the refinement suffix
when more than one attempt was used), and a later identical query hits the
cache and returns answer text that differs from the text the first caller
received.  Independently of the final verdict, every run with more than
one attempt — including a run that is ultimately judged helpful — appends
the refinement suffix to the caller's answer while the cached entry stores
the bare response, and a later identical query again returns answer text
that differs from the text the first caller received. -/
theorem cached_answer_unwrapped (env : Env) (cache : Cache) (q : String) (maxA : Nat)
    (s2 : AgentState) (t : List Ev)
    (hmiss : List.lookup (env.fingerprint q) cache = none)
    (hloop : runLoop env (maxA - 1 + 1) (checkCache env cache (initialState q maxA)) =
      (.ok s2, t)) :
    List.lookup (env.fingerprint q) (queryAgent env cache q maxA).1 =
      some (cacheDataOf s2) ∧
    (cacheDataOf s2).response = s2.response ∧
    (s2.helpfulness_score = "N" → s2.max_attempts ≤ s2.attempt_count →
      (queryAgent env cache q maxA).2.1.response =
        noteWrap s2.response s2.attempt_count ++
          (if 1 < s2.attempt_count then
            "\n\n(Response refined " ++ toString (s2.attempt_count - 1) ++
              " times for helpfulness)"
           else "") ∧
      (queryAgent env (queryAgent env cache q maxA).1 q maxA).2.1.response ≠
        (queryAgent env cache q maxA).2.1.response) ∧
    (1 < s2.attempt_count →
      (queryAgent env cache q maxA).2.1.response =
        (if (finalizeResponse s2).response = "" then (s2.messages.getLast?).getD ""
         else (finalizeResponse s2).response) ++
          ("\n\n(Response refined " ++ toString (s2.attempt_count - 1) ++
            " times for helpfulness)") ∧
      (queryAgent env (queryAgent env cache q maxA).1 q maxA).2.1.response ≠
        (queryAgent env cache q maxA).2.1.response) := by
  have hrg := runGraph_miss_eq env cache q maxA hmiss
  rw [hloop] at hrg
  dsimp only [] at hrg
  have hrec := @checkCache_of_none env cache (initialState q maxA) hmiss
  obtain ⟨-, -, kk, -⟩ := runLoop_ok_inv env _ _ _ _ hloop
  have hkey : s2.cache_key = env.fingerprint q := by
    rw [kk, hrec]; rfl
  have hinv := runLoop_messages_inv env (maxA - 1 + 1)
    (checkCache env cache (initialState q maxA)) s2 t hloop
    (by rw [hrec]; intro m hm; simp [initialState] at hm)
    (by rw [hrec]; intro hgt; simp [initialState] at hgt)
  have hqa1 : (queryAgent env cache q maxA).1 = cacheResponse cache s2 := by
    unfold queryAgent
    rw [hrg]
  have hlk2 : List.lookup (env.fingerprint q) (queryAgent env cache q maxA).1 =
      some (cacheDataOf s2) := by
    rw [hqa1]
    unfold cacheResponse
    rw [hkey]
    simp [List.lookup]
  have hqa2 := queryAgent_hit_eq env (queryAgent env cache q maxA).1 q maxA
    (cacheDataOf s2) hlk2
  have hqaR : (finalizeResponse s2).response ≠ "" →
      (queryAgent env cache q maxA).2.1.response =
        (finalizeResponse s2).response ++
          (if 1 < s2.attempt_count then
            "\n\n(Response refined " ++ toString (s2.attempt_count - 1) ++
              " times for helpfulness)"
           else "") := by
    intro hfr
    unfold queryAgent
    rw [hrg]
    dsimp only []
    rw [if_neg (fun hcon => hfr hcon.1), if_neg hfr, (finalize_pres s2).1]
  have hqaM : s2.messages ≠ [] →
      (queryAgent env cache q maxA).2.1.response =
        (if (finalizeResponse s2).response = "" then (s2.messages.getLast?).getD ""
         else (finalizeResponse s2).response) ++
          (if 1 < s2.attempt_count then
            "\n\n(Response refined " ++ toString (s2.attempt_count - 1) ++
              " times for helpfulness)"
           else "") := by
    intro hmne
    have hfm : (finalizeResponse s2).messages = s2.messages :=
      (finalize_pres s2).2.2.2.2.2.2.2
    unfold queryAgent
    rw [hrg]
    dsimp only []
    rw [(finalize_pres s2).1]
    by_cases hfr : (finalizeResponse s2).response = ""
    · rw [if_pos ⟨hfr, by rw [hfm]; exact hmne⟩, if_pos hfr, hfm]
    · rw [if_neg (fun hcon => hfr hcon.1), if_neg hfr, if_neg hfr]
  refine ⟨hlk2, rfl, ?_, ?_⟩
  · intro hN hcap
    have hfinresp : (finalizeResponse s2).response =
        noteWrap s2.response s2.attempt_count := by
      unfold finalizeResponse
      rw [if_pos ⟨hN, hcap⟩]
    have hfrne : (finalizeResponse s2).response ≠ "" := by
      rw [hfinresp]
      exact noteWrap_ne_empty _ _
    refine ⟨by rw [hqaR hfrne, hfinresp], ?_⟩
    intro heq
    rw [hqa2] at heq
    dsimp only [] at heq
    rw [show (cacheDataOf s2).response = s2.response from rfl] at heq
    rw [hqaR hfrne, hfinresp] at heq
    by_cases hr : s2.response = ""
    · rw [if_pos hr] at heq
      have hl := congrArg String.length heq
      rw [String.length_append, noteWrap_length, hr] at hl
      have hap : apologyMsg.length = 61 := by decide
      omega
    · rw [if_neg hr] at heq
      have hl := congrArg String.length heq
      rw [String.length_append, noteWrap_length] at hl
      omega
  · intro hgt
    have hmne : s2.messages ≠ [] := hinv.2 hgt
    have hSFXlen : 43 ≤ ("\n\n(Response refined " ++ toString (s2.attempt_count - 1) ++
        " times for helpfulness)").length := by
      have h1 : ("\n\n(Response refined " : String).length = 20 := by decide
      have h2 : (" times for helpfulness)" : String).length = 23 := by decide
      simp only [String.length_append, h1, h2]
      omega
    refine ⟨by rw [hqaM hmne, if_pos hgt], ?_⟩
    intro heq
    rw [hqa2] at heq
    dsimp only [] at heq
    rw [show (cacheDataOf s2).response = s2.response from rfl] at heq
    rw [hqaM hmne, if_pos hgt] at heq
    by_cases hnote : s2.helpfulness_score = "N" ∧ s2.max_attempts ≤ s2.attempt_count
    · have hfinresp : (finalizeResponse s2).response =
          noteWrap s2.response s2.attempt_count := by
        unfold finalizeResponse
        rw [if_pos hnote]
      rw [hfinresp, if_neg (noteWrap_ne_empty s2.response s2.attempt_count)] at heq
      by_cases hr : s2.response = ""
      · rw [if_pos hr] at heq
        have hl := congrArg String.length heq
        rw [String.length_append, noteWrap_length, hr] at hl
        have hap : apologyMsg.length = 61 := by decide
        omega
      · rw [if_neg hr] at heq
        have hl := congrArg String.length heq
        rw [String.length_append, noteWrap_length] at hl
        omega
    · have hfinresp : (finalizeResponse s2).response = s2.response := by
        unfold finalizeResponse
        rw [if_neg hnote]
      rw [hfinresp] at heq
      by_cases hr : s2.response = ""
      · rw [if_pos hr, if_pos hr] at heq
        have hlast : 28 ≤ ((s2.messages.getLast?).getD "").length :=
          hinv.1 _ (getLastD_mem s2.messages hmne)
        have hl := congrArg String.length heq
        rw [String.length_append] at hl
        have hap : apologyMsg.length = 61 := by decide
        omega
      · rw [if_neg hr, if_neg hr] at heq
        have hl := congrArg String.length heq
        rw [String.length_append] at hl
        omega

/-- Claim C10 witness: with a model that always judges answers unhelpful
and `maxAttempts = 2`, the run uses two attempts, and a repeat of the same
query returns text that differs from what the first caller received. -/
theorem cached_answer_unwrapped_witness :
    (queryAgent envN ((queryAgent envN [] ("q") 2).1) ("q") 2).2.1.response ≠
      (queryAgent envN [] ("q") 2).2.1.response := by
  have h := cached_answer_unwrapped envN [] ("q") 2
    (runOutState (runLoop envN (2 - 1 + 1) (checkCache envN [] (initialState ("q") 2))).1)
    ((runLoop envN (2 - 1 + 1) (checkCache envN [] (initialState ("q") 2))).2)
    rfl (by rfl)
  exact (h.2.2.2 (by decide)).2

/-! ## Structural lemmas about the source diversifier -/

theorem insertDesc_perm (s : Source) (l : List Source) :
    (insertDesc s l).Perm (s :: l) := by
  induction l with
  | nil => exact List.Perm.refl _
  | cons t rest ih =>
    simp only [insertDesc]
    split
    · exact (List.Perm.cons t ih).trans (List.Perm.swap _ _ _)
    · exact List.Perm.refl _

theorem insertDesc_sorted (s : Source) (l : List Source)
    (h : l.Pairwise (fun a b => b.score ≤ a.score)) :
    (insertDesc s l).Pairwise (fun a b => b.score ≤ a.score) := by
  induction l with
  | nil => simp [insertDesc]
  | cons t rest ih =>
    rcases List.pairwise_cons.mp h with ⟨ht, hrest⟩
    simp only [insertDesc]
    split
    next hlt =>
      rw [List.pairwise_cons]
      refine ⟨?_, ih hrest⟩
      intro b hb
      have hbmem : b ∈ s :: rest := ((insertDesc_perm s rest).mem_iff).mp hb
      rcases List.mem_cons.mp hbmem with hbs | hbr
      · subst hbs
        exact le_of_lt hlt
      · exact ht b hbr
    next hge =>
      rw [List.pairwise_cons]
      refine ⟨?_, h⟩
      intro b hb
      rcases List.mem_cons.mp hb with hbt | hbr
      · subst hbt
        exact not_lt.mp hge
      · exact (ht b hbr).trans (not_lt.mp hge)

theorem sortDesc_perm (l : List Source) : (sortDesc l).Perm l := by
  induction l with
  | nil => exact List.Perm.refl _
  | cons x rest ih =>
    simp only [sortDesc, List.foldr_cons] at *
    exact (insertDesc_perm x _).trans (List.Perm.cons x ih)

theorem sortDesc_length (l : List Source) : (sortDesc l).length = l.length :=
  (sortDesc_perm l).length_eq

theorem sortDesc_sorted (l : List Source) :
    (sortDesc l).Pairwise (fun a b => b.score ≤ a.score) := by
  induction l with
  | nil => simp [sortDesc]
  | cons x rest ih =>
    simp only [sortDesc, List.foldr_cons] at *
    exact insertDesc_sorted x _ ih

theorem sortDesc_of_sorted {l : List Source}
    (h : l.Pairwise (fun a b => b.score ≤ a.score)) : sortDesc l = l := by
  induction l with
  | nil => rfl
  | cons x rest ih =>
    rcases List.pairwise_cons.mp h with ⟨hx, hrest⟩
    simp only [sortDesc, List.foldr_cons] at *
    rw [ih hrest]
    cases rest with
    | nil => rfl
    | cons t rr =>
      simp only [insertDesc]
      rw [if_neg (not_lt.mpr (hx t (by simp)))]

theorem sortDesc_idem (l : List Source) : sortDesc (sortDesc l) = sortDesc l :=
  sortDesc_of_sorted (sortDesc_sorted l)

theorem sortDesc_singleton (s : Source) : sortDesc [s] = [s] := rfl

theorem addToGroups_fst (gs : List (String × List Source)) (k : String) (s : Source) :
    (addToGroups gs k s).map Prod.fst =
      if k ∈ gs.map Prod.fst then gs.map Prod.fst else gs.map Prod.fst ++ [k] := by
  induction gs with
  | nil => simp [addToGroups]
  | cons g rest ih =>
    rcases g with ⟨k', l⟩
    by_cases hk : k' = k
    · simp [addToGroups, hk]
    · simp [addToGroups, hk, ih]
      by_cases hmem : k ∈ rest.map Prod.fst
      · simp [hmem, Ne.symm hk]
      · simp [hmem, Ne.symm hk]

theorem addToGroups_mem_key (gs : List (String × List Source)) (k : String) (s : Source)
    (hk : baseName s.source = k)
    (hmem : ∀ p ∈ gs, ∀ x ∈ p.2, baseName x.source = p.1) :
    ∀ p ∈ addToGroups gs k s, ∀ x ∈ p.2, baseName x.source = p.1 := by
  induction gs with
  | nil =>
    intro p hp x hx
    simp [addToGroups] at hp
    subst hp
    simp at hx
    subst hx
    exact hk
  | cons g rest ih =>
    rcases g with ⟨k', l⟩
    intro p hp x hx
    by_cases hkk : k' = k
    · simp [addToGroups, hkk] at hp
      rcases hp with hp | hp
      · subst hp
        simp at hx
        rcases hx with hx | hx
        · exact hmem (k, l) (by simp [hkk]) x hx
        · subst hx; simpa [hkk] using hk
      · exact hmem p (by simp [hp]) x hx
    · simp [addToGroups, hkk] at hp
      rcases hp with hp | hp
      · subst hp
        exact hmem (k', l) (by simp) x hx
      · exact ih (fun p hp x hx => hmem p (by simp [hp]) x hx) p hp x hx

theorem addToGroups_ne_nil (gs : List (String × List Source)) (k : String) (s : Source)
    (hne : ∀ p ∈ gs, p.2 ≠ []) :
    ∀ p ∈ addToGroups gs k s, p.2 ≠ [] := by
  induction gs with
  | nil =>
    intro p hp
    simp [addToGroups] at hp
    subst hp
    simp
  | cons g rest ih =>
    rcases g with ⟨k', l⟩
    intro p hp
    by_cases hkk : k' = k
    · simp [addToGroups, hkk] at hp
      rcases hp with hp | hp
      · subst hp
        simp
      · exact hne p (by simp [hp])
    · simp [addToGroups, hkk] at hp
      rcases hp with hp | hp
      · subst hp
        exact hne (k', l) (by simp)
      · exact ih (fun p hp => hne p (by simp [hp])) p hp

theorem sourceGroups_aux (xs : List Source) (gs : List (String × List Source))
    (hnd : (gs.map Prod.fst).Nodup)
    (hmem : ∀ p ∈ gs, ∀ x ∈ p.2, baseName x.source = p.1)
    (hne : ∀ p ∈ gs, p.2 ≠ []) :
    ((xs.foldl (fun a s => addToGroups a (baseName s.source) s) gs).map Prod.fst).Nodup ∧
    (∀ p ∈ xs.foldl (fun a s => addToGroups a (baseName s.source) s) gs,
      ∀ x ∈ p.2, baseName x.source = p.1) ∧
    (∀ p ∈ xs.foldl (fun a s => addToGroups a (baseName s.source) s) gs, p.2 ≠ []) := by
  induction xs generalizing gs with
  | nil => exact ⟨hnd, hmem, hne⟩
  | cons s rest ih =>
    rw [List.foldl_cons]
    apply ih
    · rw [addToGroups_fst]
      by_cases hmemk : baseName s.source ∈ gs.map Prod.fst
      · simpa [hmemk] using hnd
      · simp only [hmemk, if_false]
        simp [List.nodup_append, hnd, hmemk]
    · exact addToGroups_mem_key gs _ s rfl hmem
    · exact addToGroups_ne_nil gs _ s hne

theorem sourceGroups_nodup_keys (xs : List Source) :
    ((sourceGroups xs).map Prod.fst).Nodup :=
  (sourceGroups_aux xs [] (by simp) (by simp) (by simp)).1

theorem sourceGroups_mem_key (xs : List Source) :
    ∀ p ∈ sourceGroups xs, ∀ x ∈ p.2, baseName x.source = p.1 :=
  (sourceGroups_aux xs [] (by simp) (by simp) (by simp)).2.1

theorem sourceGroups_ne_nil (xs : List Source) :
    ∀ p ∈ sourceGroups xs, p.2 ≠ [] :=
  (sourceGroups_aux xs [] (by simp) (by simp) (by simp)).2.2

theorem addToGroups_not_mem (gs : List (String × List Source)) (k : String) (s : Source)
    (h : k ∉ gs.map Prod.fst) :
    addToGroups gs k s = gs ++ [(k, [s])] := by
  induction gs with
  | nil => simp [addToGroups]
  | cons g rest ih =>
    rcases g with ⟨k', l⟩
    simp only [List.map_cons, List.mem_cons, not_or] at h
    simp only [addToGroups]
    rw [if_neg (fun he => h.1 he.symm), ih h.2]
    simp

theorem foldl_addToGroups_distinct (ys : List Source) (gs : List (String × List Source))
    (hdisj : ∀ s ∈ ys, baseName s.source ∉ gs.map Prod.fst)
    (hnd : (ys.map (fun s => baseName s.source)).Nodup) :
    ys.foldl (fun a s => addToGroups a (baseName s.source) s) gs =
      gs ++ ys.map (fun s => (baseName s.source, [s])) := by
  induction ys generalizing gs with
  | nil => simp
  | cons s rest ih =>
    rw [List.foldl_cons, addToGroups_not_mem gs _ s (hdisj s (by simp))]
    simp only [List.map_cons] at hnd
    rw [ih (gs ++ [(baseName s.source, [s])]) ?_ (List.nodup_cons.mp hnd).2]
    · simp
    · intro x hx
      simp only [List.map_append] at *
      simp only [List.mem_append]
      push_neg
      constructor
      · exact hdisj x (by simp [hx])
      · simp only [List.map_cons]
        simp
        intro hcontra
        exact absurd (hcontra ▸ (List.mem_map_of_mem (fun s => baseName s.source) hx))
          (List.nodup_cons.mp hnd).1

theorem sourceGroups_of_distinct (ys : List Source)
    (hnd : (ys.map (fun s => baseName s.source)).Nodup) :
    sourceGroups ys = ys.map (fun s => (baseName s.source, [s])) := by
  unfold sourceGroups
  rw [foldl_addToGroups_distinct ys [] (by simp) hnd]
  simp

theorem phase1_foldl_le (groups : List (String × List Source)) (acc : List Source × List String) :
    ((groups.foldl
      (fun acc g =>
        match g.2 with
        | [] => acc
        | best :: _ => (acc.1 ++ [best], acc.2 ++ [textFingerprint best]))
      acc).1).length ≤ acc.1.length + groups.length := by
  induction groups generalizing acc with
  | nil => simp
  | cons g rest ih =>
    rw [List.foldl_cons]
    cases hg : g.2 with
    | nil =>
      simp only [hg, List.length_cons]
      exact (ih acc).trans (by omega)
    | cons b bs =>
      simp only [hg]
      refine (ih _).trans ?_
      simp
      omega

theorem phase1_foldl_spec (groups : List (String × List Source)) (acc : List Source × List String)
    (hne : ∀ p ∈ groups, p.2 ≠ [])
    (hkey : ∀ p ∈ groups, ∀ x ∈ p.2, baseName x.source = p.1) :
    ((groups.foldl
      (fun acc g =>
        match g.2 with
        | [] => acc
        | best :: _ => (acc.1 ++ [best], acc.2 ++ [textFingerprint best]))
      acc).1).length = acc.1.length + groups.length ∧
    ((groups.foldl
      (fun acc g =>
        match g.2 with
        | [] => acc
        | best :: _ => (acc.1 ++ [best], acc.2 ++ [textFingerprint best]))
      acc).1).map (fun s => baseName s.source) =
      acc.1.map (fun s => baseName s.source) ++ groups.map Prod.fst := by
  induction groups generalizing acc with
  | nil => simp
  | cons g rest ih =>
    rw [List.foldl_cons]
    obtain ⟨b, bs, hg⟩ : ∃ b bs, g.2 = b :: bs := by
      cases hgg : g.2 with
      | nil => exact absurd hgg (hne g (by simp))
      | cons b bs => exact ⟨b, bs, rfl⟩
    have hb : baseName b.source = g.1 := hkey g (by simp) b (by rw [hg]; simp)
    simp only [hg]
    obtain ⟨ihl, ihm⟩ := ih (acc.1 ++ [b], acc.2 ++ [textFingerprint b])
      (fun p hp => hne p (by simp [hp])) (fun p hp => hkey p (by simp [hp]))
    constructor
    · rw [ihl]
      simp
      omega
    · rw [ihm]
      simp [hb]

theorem phase1_foldl_singletons (ys : List Source) (acc : List Source × List String) :
    (((ys.map (fun s => (baseName s.source, ([s] : List Source)))).foldl
      (fun acc g =>
        match g.2 with
        | [] => acc
        | best :: _ => (acc.1 ++ [best], acc.2 ++ [textFingerprint best]))
      acc).1) = acc.1 ++ ys := by
  induction ys generalizing acc with
  | nil => simp
  | cons s rest ih =>
    simp only [List.map_cons, List.foldl_cons]
    rw [ih]
    simp

theorem scanGroup_length_le (target : Nat) (l : List Source) (acc : List Source × List String) :
    (scanGroup target l acc).1.length ≤ max target acc.1.length := by
  induction l generalizing acc with
  | nil => exact le_max_right _ _
  | cons s rest ih =>
    rcases acc with ⟨final, seen⟩
    simp only [scanGroup]
    by_cases h1 : target ≤ final.length
    · rw [if_pos h1]
      exact le_max_right _ _
    · rw [if_neg h1]
      by_cases h2 : textFingerprint s ∈ seen
      · rw [if_pos h2]
        exact ih (final, seen)
      · rw [if_neg h2]
        refine (ih (final ++ [s], seen ++ [textFingerprint s])).trans ?_
        have hle : (final ++ [s]).length ≤ target := by
          simp
          omega
        calc max target (final ++ [s]).length = target := Nat.max_eq_left hle
          _ ≤ max target final.length := le_max_left _ _

theorem backfillGroups_length_le (target : Nat) (gs : List (String × List Source))
    (acc : List Source × List String) :
    (backfillGroups target gs acc).1.length ≤ max target acc.1.length := by
  induction gs generalizing acc with
  | nil => exact le_max_right _ _
  | cons g rest ih =>
    rcases acc with ⟨final, seen⟩
    simp only [backfillGroups]
    by_cases h1 : target ≤ final.length
    · rw [if_pos h1]
      exact le_max_right _ _
    · rw [if_neg h1]
      refine (ih (scanGroup target g.2 (final, seen))).trans ?_
      exact max_le (le_max_left _ _) (scanGroup_length_le target g.2 (final, seen))

theorem count_le_one_of_nodup_map (l : List Source) (k : String)
    (h : (l.map (fun s => baseName s.source)).Nodup) :
    (l.filter (fun s => baseName s.source == k)).length ≤ 1 := by
  induction l with
  | nil => simp
  | cons a rest ih =>
    simp only [List.map_cons, List.nodup_cons] at h
    by_cases hk : baseName a.source = k
    · have hfil : rest.filter (fun s => baseName s.source == k) = [] := by
        rw [List.filter_eq_nil_iff]
        intro b hb
        simp only [beq_iff_eq]
        intro hbk
        apply h.1
        rw [hk, ← hbk]
        exact List.mem_map_of_mem _ hb
      simp [List.filter_cons, hk, hfil]
    · simp only [List.filter_cons, beq_iff_eq, hk]
      simp only [if_false, decide_eq_true_eq]
      exact ih h.2

/-! ## Claim C4 — diversifier size, per-group and sortedness bounds -/

set_option maxRecDepth 40000 in
/-- Claim C4, counterexample: four candidates in four distinct documents
yield four selected sources — phase 1 keeps one representative per
document group with no cap, so the output size exceeds the target 3. -/
theorem diversify_size_counterexample :
    (diversify 3 ex4docs).length = 4 ∧ ¬ ((diversify 3 ex4docs).length ≤ 3) := by
  exact ⟨by decide, by decide⟩

theorem diversify_no_backfill (n : Nat) (xs : List Source)
    (h : ¬ ((phase1 ((sourceGroups xs).map (fun g => (g.1, sortDesc g.2)))).1.length < n)) :
    diversify n xs =
      sortDesc (phase1 ((sourceGroups xs).map (fun g => (g.1, sortDesc g.2)))).1 := by
  unfold diversify
  dsimp only []
  rw [if_neg h]

theorem diversify_grouped_ne_nil (xs : List Source) :
    ∀ p ∈ (sourceGroups xs).map (fun g => (g.1, sortDesc g.2)), p.2 ≠ [] := by
  intro p hp
  obtain ⟨g, hg, rfl⟩ := List.mem_map.mp hp
  intro hnil
  dsimp only [] at hnil
  apply sourceGroups_ne_nil xs g hg
  have := sortDesc_length g.2
  rw [hnil] at this
  exact List.length_eq_zero.mp this.symm

theorem diversify_grouped_mem_key (xs : List Source) :
    ∀ p ∈ (sourceGroups xs).map (fun g => (g.1, sortDesc g.2)),
      ∀ x ∈ p.2, baseName x.source = p.1 := by
  intro p hp x hx
  obtain ⟨g, hg, rfl⟩ := List.mem_map.mp hp
  exact sourceGroups_mem_key xs g hg x ((sortDesc_perm g.2).mem_iff.mp hx)

/-- Claim C4 (amended): the diversifier's output (a) has size at most
`max #groups 3` — at most 3 whenever there are at most 3 distinct document
groups, but one representative per group with no cap when there are more
(see the counterexample); (b) contains at most one entry per document
group whenever no backfill was required (at least 3 distinct groups); and
(c) is always sorted descending by score. -/
theorem diversify_bounds (xs : List Source) :
    (diversify 3 xs).length ≤ max (sourceGroups xs).length 3 ∧
    (3 ≤ (sourceGroups xs).length →
      ∀ k, ((diversify 3 xs).filter (fun s => baseName s.source == k)).length ≤ 1) ∧
    (diversify 3 xs).Pairwise (fun a b => b.score ≤ a.score) := by
  obtain ⟨hplen, hpmap⟩ := phase1_foldl_spec
    ((sourceGroups xs).map (fun g => (g.1, sortDesc g.2))) ([], [])
    (diversify_grouped_ne_nil xs) (diversify_grouped_mem_key xs)
  rw [show ((sourceGroups xs).map (fun g => (g.1, sortDesc g.2))).foldl
      (fun acc g =>
        match g.2 with
        | [] => acc
        | best :: _ => (acc.1 ++ [best], acc.2 ++ [textFingerprint best]))
      ([], []) = phase1 ((sourceGroups xs).map (fun g => (g.1, sortDesc g.2))) from rfl]
    at hplen hpmap
  simp only [List.length_nil, List.length_map, Nat.zero_add, List.map_nil,
    List.nil_append] at hplen hpmap
  have hGfst : ((sourceGroups xs).map (fun g => (g.1, sortDesc g.2))).map Prod.fst =
      (sourceGroups xs).map Prod.fst := by
    rw [List.map_map]
    rfl
  refine ⟨?_, ?_, ?_⟩
  · by_cases hlen : (phase1 ((sourceGroups xs).map (fun g => (g.1, sortDesc g.2)))).1.length < 3
    · have hdiv : diversify 3 xs = sortDesc (backfillGroups 3
          ((sourceGroups xs).map (fun g => (g.1, sortDesc g.2)))
          (phase1 ((sourceGroups xs).map (fun g => (g.1, sortDesc g.2))))).1 := by
        unfold diversify
        dsimp only []
        rw [if_pos hlen]
      rw [hdiv, sortDesc_length]
      refine (backfillGroups_length_le _ _ _).trans ?_
      refine (max_le (le_max_right _ _) ?_)
      refine le_trans ?_ (le_max_right _ _)
      omega
    · rw [diversify_no_backfill 3 xs hlen, sortDesc_length]
      rw [hplen]
      exact le_max_left _ _
  · intro h3 k
    have hlen : ¬ ((phase1 ((sourceGroups xs).map (fun g => (g.1, sortDesc g.2)))).1.length < 3) := by
      rw [hplen]
      omega
    rw [diversify_no_backfill 3 xs hlen]
    have hnodup : ((phase1 ((sourceGroups xs).map
        (fun g => (g.1, sortDesc g.2)))).1.map (fun s => baseName s.source)).Nodup := by
      rw [hpmap, hGfst]
      exact sourceGroups_nodup_keys xs
    have hperm := (sortDesc_perm
      (phase1 ((sourceGroups xs).map (fun g => (g.1, sortDesc g.2)))).1).filter
      (fun s => baseName s.source == k)
    rw [hperm.length_eq]
    exact count_le_one_of_nodup_map _ k hnodup
  · unfold diversify
    dsimp only []
    exact sortDesc_sorted _

set_option maxRecDepth 40000 in
/-- Claim C4 witness: three candidates in three distinct documents are
within the size bound, contain at most one entry for document A's group,
and are sorted descending. -/
theorem diversify_bounds_witness :
    (diversify 3 [exA1, exB1, exC1]).length ≤ max (sourceGroups [exA1, exB1, exC1]).length 3 ∧
    ((diversify 3 [exA1, exB1, exC1]).filter
      (fun s => baseName s.source == "DocA")).length ≤ 1 ∧
    (diversify 3 [exA1, exB1, exC1]).Pairwise (fun a b => b.score ≤ a.score) := by
  have h := diversify_bounds [exA1, exB1, exC1]
  exact ⟨h.1, h.2.1 (by decide) ("DocA"), h.2.2⟩

/-! ## Claim C9 — idempotence of the diversifier -/

set_option maxRecDepth 40000 in
/-- Claim C9, counterexample: idempotence fails for target `n = 4` on a
4-candidate list (two documents, two chunks each, the secondary chunks
tied in score): the backfilled tied chunks are re-emitted in a different
group order on the second pass, and the stable sort preserves that
different order. -/
theorem diversify_idempotent_counterexample :
    4 ≤ ex9.length ∧ diversify 4 (diversify 4 ex9) ≠ diversify 4 ex9 := by
  exact ⟨by decide, by decide⟩

/-- Claim C9 (amended): the diversifier is idempotent on every input with
at least `n` distinct document groups (so that no backfill occurs):
`diversify n (diversify n xs) = diversify n xs`.  With fewer groups than
the target, backfill can reorder tied chunks across groups and idempotence
can fail (see the counterexample); at the hard-coded target 3 of the
endpoints the failure pattern needs at least four selected sources, hence
at least target 4. -/
theorem diversify_idempotent_on_groups (n : Nat) (xs : List Source)
    (h : n ≤ (sourceGroups xs).length) :
    diversify n (diversify n xs) = diversify n xs := by
  obtain ⟨hplen, hpmap⟩ := phase1_foldl_spec
    ((sourceGroups xs).map (fun g => (g.1, sortDesc g.2))) ([], [])
    (diversify_grouped_ne_nil xs) (diversify_grouped_mem_key xs)
  rw [show ((sourceGroups xs).map (fun g => (g.1, sortDesc g.2))).foldl
      (fun acc g =>
        match g.2 with
        | [] => acc
        | best :: _ => (acc.1 ++ [best], acc.2 ++ [textFingerprint best]))
      ([], []) = phase1 ((sourceGroups xs).map (fun g => (g.1, sortDesc g.2))) from rfl]
    at hplen hpmap
  simp only [List.length_nil, List.length_map, Nat.zero_add, List.map_nil,
    List.nil_append] at hplen hpmap
  have hGfst : ((sourceGroups xs).map (fun g => (g.1, sortDesc g.2))).map Prod.fst =
      (sourceGroups xs).map Prod.fst := by
    rw [List.map_map]
    rfl
  have hlen1 : ¬ ((phase1 ((sourceGroups xs).map
      (fun g => (g.1, sortDesc g.2)))).1.length < n) := by
    rw [hplen]
    omega
  rw [diversify_no_backfill n xs hlen1]
  have hynodup : ((sortDesc (phase1 ((sourceGroups xs).map
      (fun g => (g.1, sortDesc g.2)))).1).map (fun s => baseName s.source)).Nodup := by
    refine ((sortDesc_perm _).map _).nodup_iff.mpr ?_
    rw [hpmap, hGfst]
    exact sourceGroups_nodup_keys xs
  have hsgy := sourceGroups_of_distinct _ hynodup
  have hylen : (sortDesc (phase1 ((sourceGroups xs).map
      (fun g => (g.1, sortDesc g.2)))).1).length = (sourceGroups xs).length := by
    rw [sortDesc_length, hplen]
  unfold diversify
  dsimp only []
  rw [hsgy, List.map_map]
  rw [show ((fun g => (g.1, sortDesc g.2)) ∘ fun s => (baseName s.source, [s])) =
      (fun s => (baseName s.source, ([s] : List Source))) from by
    funext s
    simp [Function.comp, sortDesc_singleton]]
  have hfix : (phase1 ((sortDesc (phase1 ((sourceGroups xs).map
        (fun g => (g.1, sortDesc g.2)))).1).map
        (fun s => (baseName s.source, ([s] : List Source))))).1 =
      sortDesc (phase1 ((sourceGroups xs).map (fun g => (g.1, sortDesc g.2)))).1 := by
    have hp1y := phase1_foldl_singletons (sortDesc (phase1 ((sourceGroups xs).map
      (fun g => (g.1, sortDesc g.2)))).1) ([], [])
    unfold phase1
    simpa using hp1y
  rw [if_neg (by rw [hfix, hylen]; omega)]
  rw [hfix]
  exact sortDesc_idem _

set_option maxRecDepth 40000 in
/-- Claim C9 witness: at target 3 with three distinct document groups,
applying the diversifier to its own output returns the output unchanged. -/
theorem diversify_idempotent_on_groups_witness :
    diversify 3 (diversify 3 [exA1, exB1, exC1]) = diversify 3 [exA1, exB1, exC1] :=
  diversify_idempotent_on_groups 3 [exA1, exB1, exC1] (by decide)
